import Mathlib

/-!
Verification of the eece6083-compiler sources (scanner, parser, type checker,
optimizer, code generator) against its natural-language specification.

The Python modules are shallowly embedded: each Python function that a claim
depends on is translated into an executable Lean definition of the same name
(modulo Lean naming rules), and the claims are settled as theorems about those
definitions.  Machine-level details that the claims do not depend on (source
spans carried by tokens for diagnostics, printed error text) are noted where
they are elided.
-/

set_option maxRecDepth 20000

/-!
Token-kind constants.

Modelled from the spec: the package `ececompiler/tokens.py` is not present in
the sources (only its callers `ececompiler/scanner.py`,
`ececompiler/typechecker.py` and the sibling `src` modules are).  The spec's
kind set (section 4.1) lists the punctuation and operator kinds by their
lexemes, and the `src` modules require exactly that: `ConstantFolder` passes
`node.op` to the host `eval` (so `PLUS` must be the string `+`, `NOT` the
string `not`), the code generator emits `node.op` directly into C text, and
`DeadCodeEliminator` looks for `tokens.RETURN` inside statement lists.  The
stale `src/tokens.py` (uppercase values) is incompatible with those modules,
so the constants below use the lexeme values.
-/

namespace tokens

def IDENTIFIER : String := "IDENTIFIER"
def NUMBER : String := "NUMBER"
def STRING : String := "STRING"
def ERROR : String := "ERROR"
def EOF : String := "EOF"
def STRING_TYPE : String := "string"
def INT : String := "int"
def BOOL : String := "bool"
def FLOAT : String := "float"
def GLOBAL : String := "global"
def IN : String := "in"
def OUT : String := "out"
def IF : String := "if"
def THEN : String := "then"
def ELSE : String := "else"
def FOR : String := "for"
def NOT : String := "not"
def AND : String := "&"
def OR : String := "|"
def PROGRAM : String := "program"
def PROCEDURE : String := "procedure"
def BEGIN : String := "begin"
def RETURN : String := "return"
def END : String := "end"
def TRUE : String := "true"
def FALSE : String := "false"
def IS : String := "is"
def SEMICOLON : String := ";"
def COMMA : String := ","
def PLUS : String := "+"
def MINUS : String := "-"
def MULTIPLY : String := "*"
def DIVIDE : String := "/"
def OPENPAREN : String := "("
def CLOSEPAREN : String := ")"
def OPENBRACKET : String := "["
def CLOSEBRACKET : String := "]"
def LT : String := "<"
def LTE : String := "<="
def GT : String := ">"
def GTE : String := ">="
def NOTEQUAL : String := "!="
def EQUAL : String := "=="
def ASSIGN : String := ":="

end tokens

/-!
The AST of `src/syntaxtree.py`.

Every Python node class is a constructor.  The Python classes additionally
carry a `token` slot (a source span used only for diagnostics) that is
excluded from equality; it is not modelled.  The type checker dynamically
attaches a `node_type` attribute to expression nodes; it lives outside
`__slots__` and therefore outside equality, and is modelled as the trailing
`ntype` field of the expression constructors that the code generator reads
it from.  A bare `return` statement is represented in the source by the
string `tokens.RETURN` sitting in a statement list; the constructor
`ReturnTok` stands for that string.  The parser likewise produces bare
Python strings in node position for `true`/`false` terms and for the array
size stored in `VarDecl.array_length`; the constructor `PyStrTok` stands
for such a string.
-/

inductive Node where
  | Program (name : Node) (decls : List Node) (body : List Node)
  | VarDecl (is_global : Bool) (type_ : String) (name : Node) (array_length : Option Node)
  | ProcDecl (is_global : Bool) (name : Node) (params : List Node) (decls : List Node) (body : List Node)
  | Param (var_decl : Node) (direction : String)
  | Assign (target : Node) (value : Node)
  | If (test : Node) (body : List Node) (orelse : List Node)
  | For (assignment : Node) (test : Node) (body : List Node)
  | Call (func : Node) (args : List Node)
  | BinaryOp (op : String) (left : Node) (right : Node) (ntype : Option String)
  | UnaryOp (op : String) (operand : Node) (ntype : Option String)
  | Subscript (name : Node) (index : Node) (ntype : Option String)
  | Num (n : String)
  | Name (id : String) (ntype : Option String)
  | Str (s : String)
  | ReturnTok
  | PyStrTok (s : String)
  deriving Repr

/-- Python values as far as `Node.__eq__` can observe them: strings, booleans,
`None`, lists, and nodes reduced to their slot count and non-token fields. -/
inductive PyVal where
  | vStr (s : String)
  | vBool (b : Bool)
  | vNone
  | vList (xs : List PyVal)
  | vNode (slots : Nat) (fields : List PyVal)
  deriving Repr

/-- Python `len(node)`, which is `len(__slots__)`: the declared fields plus
the `token` slot appended by the metaclass. -/
def slotCount : Node → Nat
  | .Program _ _ _ => 4
  | .VarDecl _ _ _ _ => 5
  | .ProcDecl _ _ _ _ _ => 6
  | .Param _ _ => 3
  | .Assign _ _ => 3
  | .If _ _ _ => 4
  | .For _ _ _ => 4
  | .Call _ _ => 3
  | .BinaryOp _ _ _ _ => 4
  | .UnaryOp _ _ _ => 3
  | .Subscript _ _ _ => 3
  | .Num _ => 2
  | .Name _ _ => 2
  | .Str _ => 2
  | .ReturnTok => 0
  | .PyStrTok _ => 0

/-- True for values that are instances of the Python `Node` base class
(`ReturnTok` and `PyStrTok` stand for plain strings). -/
def isAstNode : Node → Bool
  | .ReturnTok => false
  | .PyStrTok _ => false
  | _ => true

mutual

/-- Erase a node to what Python `==` can observe of it.  An AST node becomes
`vNode` of its slot count and erased non-token fields (in `__slots__` order,
skipping `token` and the dynamic `node_type`); the `return` marker is the
plain string `tokens.RETURN`. -/
def eraseNode : Node → PyVal
  | .Program name decls body =>
      .vNode 4 [eraseNode name, .vList (eraseList decls), .vList (eraseList body)]
  | .VarDecl g ty name len? =>
      .vNode 5 [.vBool g, .vStr ty, eraseNode name, eraseOpt len?]
  | .ProcDecl g name params decls body =>
      .vNode 6 [.vBool g, eraseNode name, .vList (eraseList params),
                .vList (eraseList decls), .vList (eraseList body)]
  | .Param vd dir => .vNode 3 [eraseNode vd, .vStr dir]
  | .Assign t v => .vNode 3 [eraseNode t, eraseNode v]
  | .If t b o => .vNode 4 [eraseNode t, .vList (eraseList b), .vList (eraseList o)]
  | .For a t b => .vNode 4 [eraseNode a, eraseNode t, .vList (eraseList b)]
  | .Call f args => .vNode 3 [eraseNode f, .vList (eraseList args)]
  | .BinaryOp op l r _ => .vNode 4 [.vStr op, eraseNode l, eraseNode r]
  | .UnaryOp op x _ => .vNode 3 [.vStr op, eraseNode x]
  | .Subscript nm ix _ => .vNode 3 [eraseNode nm, eraseNode ix]
  | .Num n => .vNode 2 [.vStr n]
  | .Name id _ => .vNode 2 [.vStr id]
  | .Str s => .vNode 2 [.vStr s]
  | .ReturnTok => .vStr tokens.RETURN
  | .PyStrTok s => .vStr s

def eraseOpt : Option Node → PyVal
  | none => .vNone
  | some n => eraseNode n

def eraseList : List Node → List PyVal
  | [] => []
  | n :: rest => eraseNode n :: eraseList rest

end

mutual

/-- Python `==` on erased values.  Two nodes are equal when both are nodes
with the same `len(__slots__)` and pairwise-equal non-token fields
(`Node.__eq__`); lists compare by length and elements; a node never equals a
non-node (`isinstance` check). -/
def pyEq : PyVal → PyVal → Bool
  | .vStr a, .vStr b => a == b
  | .vBool a, .vBool b => a == b
  | .vNone, .vNone => true
  | .vList xs, .vList ys => pyEqList xs ys
  | .vNode k fs, .vNode k' fs' => k == k' && pyEqList fs fs'
  | _, _ => false

def pyEqList : List PyVal → List PyVal → Bool
  | [], [] => true
  | x :: xs, y :: ys => pyEq x y && pyEqList xs ys
  | _, _ => false

end

/-- `Node.__eq__` of `src/syntaxtree.py`. -/
def nodeEq (a b : Node) : Bool := pyEq (eraseNode a) (eraseNode b)

/-- Python list equality for statement/declaration lists. -/
def nodeListEq (xs ys : List Node) : Bool := pyEqList (eraseList xs) (eraseList ys)

mutual

theorem pyEq_refl (v : PyVal) : pyEq v v = true := by
  cases v with
  | vStr s => simp [pyEq]
  | vBool b => simp [pyEq]
  | vNone => simp [pyEq]
  | vList xs => simpa [pyEq] using pyEqList_refl xs
  | vNode k fs => simp [pyEq, pyEqList_refl fs]

theorem pyEqList_refl (xs : List PyVal) : pyEqList xs xs = true := by
  cases xs with
  | nil => simp [pyEqList]
  | cons x rest => simp [pyEqList, pyEq_refl x, pyEqList_refl rest]

end

theorem nodeEq_refl (a : Node) : nodeEq a a = true := by
  simp [nodeEq, pyEq_refl]

/-- The erased fields of a node, in slot order. -/
def fieldsOf (n : Node) : List PyVal :=
  match eraseNode n with
  | .vNode _ fs => fs
  | _ => []

theorem eraseNode_eq_vNode (a : Node) (h : isAstNode a = true) :
    eraseNode a = .vNode (slotCount a) (fieldsOf a) := by
  cases a <;> simp_all [isAstNode, eraseNode, slotCount, fieldsOf]

/-- C10: AST node equality disregards the node's variant class: it compares
only the slot count and the pairwise (Python) equality of the non-token field
values.  Consequently `Num s`, `Str s` and `Name s` are all mutually equal,
and an `Assign` equals a `Subscript` whose two fields equal its own. -/
theorem node_eq_ignores_variant :
    (∀ a b : Node, isAstNode a = true → isAstNode b = true →
      slotCount a = slotCount b → pyEqList (fieldsOf a) (fieldsOf b) = true →
      nodeEq a b = true) ∧
    (∀ s : String, nodeEq (.Num s) (.Str s) = true ∧
      nodeEq (.Num s) (.Name s none) = true ∧
      nodeEq (.Str s) (.Name s none) = true) ∧
    (∀ t v : Node, nodeEq (.Assign t v) (.Subscript t v none) = true) := by
  refine ⟨?_, ?_, ?_⟩
  · intro a b ha hb hslots hfields
    unfold nodeEq
    rw [eraseNode_eq_vNode a ha, eraseNode_eq_vNode b hb, hslots]
    simp [pyEq, hfields]
  · intro s
    refine ⟨?_, ?_, ?_⟩ <;> simp [nodeEq, eraseNode, pyEq, pyEqList]
  · intro t v
    simp [nodeEq, eraseNode, pyEq, pyEqList, pyEq_refl]

/-- Witness for C10: the general part applied at the concrete nodes
`Assign (Name x) (Num 1)` and `Subscript (Name x) (Num 1)`. -/
theorem node_eq_ignores_variant_witness :
    nodeEq (.Assign (.Name ("x") none) (.Num ("1")))
           (.Subscript (.Name ("x") none) (.Num ("1")) none) = true :=
  node_eq_ignores_variant.1
    (.Assign (.Name ("x") none) (.Num ("1")))
    (.Subscript (.Name ("x") none) (.Num ("1")) none)
    (by decide) (by decide) (by decide) (by decide)

/-!
Scanner embedding.

Two scanner variants exist in the sources: `ececompiler/scanner.py`
(`_tokenize_line`) and `src/scanner.py` (`tokenize_line`).  Lines are
modelled as `List Char` with Python string indices; the `%`-formatted
diagnostic text of the "illegal characters in string" ERROR token (a Python
tuple repr) is elided, since no claim depends on it.
-/

structure Token where
  type_ : String
  token : String
  start : Nat
  end_ : Nat
  lineno : Nat
  line : String
  deriving Repr, DecidableEq

def charAt (line : List Char) (pos : Nat) : Option Char := line.get? pos

/-- Python `line[s:e]` for `s ≤ e` (indices past the end are clamped). -/
def pySlice (line : List Char) (s e : Nat) : String :=
  String.mk ((line.drop s).take (e - s))

/-- Python `str.isspace` for the ASCII whitespace characters. -/
def pyIsSpace (c : Char) : Bool :=
  c == ' ' || c == '\t' || c == '\n' || c == '\x0b' || c == '\x0c' || c == '\r'

/-- `_advance_pos` (identical in both scanner variants): the index of the
first character that fails the test and is not an underscore. -/
def advance_pos (line : List Char) (pos : Nat) (test : Char → Bool) : Nat :=
  go (line.length + 1) pos
where
  go : Nat → Nat → Nat
    | 0, p => p
    | fuel + 1, p =>
      match charAt line p with
      | some c => if c == '_' || test c then go fuel (p + 1) else p
      | none => p

/-- Python `line.find(c, start)`. -/
def pyFind (line : List Char) (c : Char) (start : Nat) : Option Nat :=
  match (line.drop start).findIdx? (· == c) with
  | some i => some (start + i)
  | none => none

/-- `legal_string_characters = string.letters + string.digits + " _,;:.'"`. -/
def legal_string_characters (c : Char) : Bool :=
  c.isAlpha || c.isDigit ||
    c == ' ' || c == '_' || c == ',' || c == ';' || c == ':' || c == '.' || c == '\x27'

/-- Python `lexeme.replace('_', '')`. -/
def stripUnderscores (s : String) : String :=
  String.mk (s.toList.filter (fun c => c != '_'))

/-- The `token_map` of `ececompiler/scanner.py`. -/
def ece_token_map (s : String) : Option String :=
  if s == ";" then some tokens.SEMICOLON
  else if s == "," then some tokens.COMMA
  else if s == "+" then some tokens.PLUS
  else if s == "-" then some tokens.MINUS
  else if s == "*" then some tokens.MULTIPLY
  else if s == "/" then some tokens.DIVIDE
  else if s == "(" then some tokens.OPENPAREN
  else if s == ")" then some tokens.CLOSEPAREN
  else if s == "<" then some tokens.LT
  else if s == "<=" then some tokens.LTE
  else if s == ">" then some tokens.GT
  else if s == ">=" then some tokens.GTE
  else if s == "!=" then some tokens.NOTEQUAL
  else if s == "==" then some tokens.EQUAL
  else if s == ":=" then some tokens.ASSIGN
  else if s == "[" then some tokens.OPENBRACKET
  else if s == "]" then some tokens.CLOSEBRACKET
  else if s == "&" then some tokens.AND
  else if s == "|" then some tokens.OR
  else if s == "string" then some tokens.STRING_TYPE
  else if s == "int" then some tokens.INT
  else if s == "bool" then some tokens.BOOL
  else if s == "float" then some tokens.FLOAT
  else if s == "global" then some tokens.GLOBAL
  else if s == "in" then some tokens.IN
  else if s == "out" then some tokens.OUT
  else if s == "if" then some tokens.IF
  else if s == "then" then some tokens.THEN
  else if s == "else" then some tokens.ELSE
  else if s == "for" then some tokens.FOR
  else if s == "not" then some tokens.NOT
  else if s == "program" then some tokens.PROGRAM
  else if s == "procedure" then some tokens.PROCEDURE
  else if s == "begin" then some tokens.BEGIN
  else if s == "return" then some tokens.RETURN
  else if s == "end" then some tokens.END
  else if s == "true" then some tokens.TRUE
  else if s == "false" then some tokens.FALSE
  else if s == "is" then some tokens.IS
  else none

/-- `_tokenize_line` of `ececompiler/scanner.py`.  The loop is driven by the
remaining fuel (one unit per iteration; the cursor advances by at least one
column per iteration, so `length + 2` fuel always suffices).  A `KeyError`
on an unmapped single-character lexeme (only possible for a brace, which the
token map does not contain) aborts the scan like the uncaught Python
exception would. -/
def ece_tokenize_loop (line : List Char) (lineno : Nat) (lineStr : String) :
    Nat → Nat → List Token
  | 0, _ => []
  | fuel + 1, pos =>
    match charAt line pos with
    | none => []
    | some c =>
      if pySlice line pos (pos + 2) == "//" then []
      else if pyIsSpace c then ece_tokenize_loop line lineno lineStr fuel (pos + 1)
      else if [';', ',', '+', '-', '*', '/', '(', ')', '\x7b', '\x7d', '[', ']', '&', '|'].contains c then
        match ece_token_map (String.mk [c]) with
        | some t => Token.mk t (String.mk [c]) pos pos lineno lineStr ::
            ece_tokenize_loop line lineno lineStr fuel (pos + 1)
        | none => []
      else if ['<', '>', '!', '=', ':'].contains c then
        let lexeme := pySlice line pos (pos + 2)
        match ece_token_map lexeme with
        | some t => Token.mk t lexeme pos (pos + lexeme.length - 1) lineno lineStr ::
            ece_tokenize_loop line lineno lineStr fuel (pos + 2)
        | none =>
          if c == '<' || c == '>' then
            match ece_token_map (String.mk [c]) with
            | some t => Token.mk t (String.mk [c]) pos pos lineno lineStr ::
                ece_tokenize_loop line lineno lineStr fuel (pos + 1)
            | none => []
          else
            Token.mk tokens.ERROR
                ("Illegal character \x27" ++ String.mk [c] ++ "\x27 encountered")
                pos pos lineno lineStr ::
              ece_tokenize_loop line lineno lineStr fuel (pos + 1)
      else if c.isAlpha then
        let newpos := advance_pos line pos (fun ch => ch.isAlphanum)
        let lexeme := pySlice line pos newpos
        let ttype := (ece_token_map lexeme).getD tokens.IDENTIFIER
        Token.mk ttype lexeme pos (newpos - 1) lineno lineStr ::
          ece_tokenize_loop line lineno lineStr fuel newpos
      else if c.isDigit then
        let p1 := advance_pos line pos (fun ch => ch.isDigit)
        let p2 :=
          match charAt line p1 with
          | some ch => if ch == '.' then advance_pos line (p1 + 1) (fun ch2 => ch2.isDigit) else p1
          | none => p1
        Token.mk tokens.NUMBER (stripUnderscores (pySlice line pos p2)) pos (p2 - 1) lineno lineStr ::
          ece_tokenize_loop line lineno lineStr fuel p2
      else if c == '"' then
        match pyFind line '"' (pos + 1) with
        | none =>
          [Token.mk tokens.ERROR ("EOL while scanning string literal") pos (line.length - 1) lineno lineStr]
        | some q =>
          let lexeme := pySlice line pos (q + 1)
          let inner := (lexeme.toList.drop 1).dropLast
          let tok :=
            if inner.any (fun ch => !legal_string_characters ch) then
              Token.mk tokens.ERROR ("Illegal characters found in string") pos q lineno lineStr
            else
              Token.mk tokens.STRING lexeme pos q lineno lineStr
          tok :: ece_tokenize_loop line lineno lineStr fuel (q + 1)
      else
        Token.mk tokens.ERROR ("Illegal character \x27" ++ String.mk [c] ++ "\x27 encountered")
            pos pos lineno lineStr ::
          ece_tokenize_loop line lineno lineStr fuel (pos + 1)

def ece_tokenize_line (line : String) (lineno : Nat) : List Token :=
  ece_tokenize_loop line.toList lineno line (line.length + 2) 0

/-- The `token_map` of `src/scanner.py` (the older variant: `=` is EQUAL,
`:` is COLON, braces are mapped, brackets and `&`/`|` are not). -/
def src_token_map (s : String) : Option String :=
  if s == ":" then some "COLON"
  else if s == ";" then some tokens.SEMICOLON
  else if s == "," then some tokens.COMMA
  else if s == "+" then some tokens.PLUS
  else if s == "-" then some tokens.MINUS
  else if s == "*" then some tokens.MULTIPLY
  else if s == "/" then some tokens.DIVIDE
  else if s == "(" then some tokens.OPENPAREN
  else if s == ")" then some tokens.CLOSEPAREN
  else if s == "<" then some tokens.LT
  else if s == "<=" then some tokens.LTE
  else if s == ">" then some tokens.GT
  else if s == ">=" then some tokens.GTE
  else if s == "!=" then some tokens.NOTEQUAL
  else if s == "=" then some tokens.EQUAL
  else if s == ":=" then some tokens.ASSIGN
  else if s == "\x7b" then some "OPENBRACE"
  else if s == "\x7d" then some "CLOSEBRACE"
  else if s == "string" then some "STRING_KEYWORD"
  else if s == "int" then some tokens.INT
  else if s == "bool" then some tokens.BOOL
  else if s == "float" then some tokens.FLOAT
  else if s == "global" then some tokens.GLOBAL
  else if s == "in" then some tokens.IN
  else if s == "out" then some tokens.OUT
  else if s == "if" then some tokens.IF
  else if s == "then" then some tokens.THEN
  else if s == "else" then some tokens.ELSE
  else if s == "case" then some "CASE"
  else if s == "for" then some tokens.FOR
  else if s == "and" then some "AND_KW"
  else if s == "or" then some "OR_KW"
  else if s == "not" then some tokens.NOT
  else if s == "program" then some tokens.PROGRAM
  else if s == "procedure" then some tokens.PROCEDURE
  else if s == "begin" then some tokens.BEGIN
  else if s == "return" then some tokens.RETURN
  else if s == "end" then some tokens.END
  else none

/-- `tokenize_line` of `src/scanner.py`.  The NUMBER branch emits
`line[startpos:pos]` verbatim: no underscore stripping. -/
def src_tokenize_loop (line : List Char) (lineno : Nat) (lineStr : String) :
    Nat → Nat → List Token
  | 0, _ => []
  | fuel + 1, pos =>
    match charAt line pos with
    | none => []
    | some c =>
      if pySlice line pos (pos + 2) == "//" then []
      else if pyIsSpace c then src_tokenize_loop line lineno lineStr fuel (pos + 1)
      else if [';', ',', '+', '-', '*', '/', '(', ')', '=', '\x7b', '\x7d'].contains c then
        match src_token_map (String.mk [c]) with
        | some t => Token.mk t (String.mk [c]) pos pos lineno lineStr ::
            src_tokenize_loop line lineno lineStr fuel (pos + 1)
        | none => []
      else if ['<', '>', ':'].contains c then
        let lexeme := pySlice line pos (pos + 2)
        match src_token_map lexeme with
        | some t => Token.mk t lexeme pos (pos + lexeme.length - 1) lineno lineStr ::
            src_tokenize_loop line lineno lineStr fuel (pos + 2)
        | none =>
          match src_token_map (String.mk [c]) with
          | some t => Token.mk t (String.mk [c]) pos pos lineno lineStr ::
              src_tokenize_loop line lineno lineStr fuel (pos + 1)
          | none => []
      else if c == '!' then
        if pySlice line pos (pos + 2) == "!=" then
          Token.mk tokens.NOTEQUAL ("!=") pos (pos + 1) lineno lineStr ::
            src_tokenize_loop line lineno lineStr fuel (pos + 2)
        else
          let errorpos := if pos == line.length - 1 then pos else pos + 1
          let bad := match charAt line errorpos with
            | some ch => String.mk [ch]
            | none => ""
          Token.mk tokens.ERROR ("Illegal character \x27" ++ bad ++ "\x27 encountered")
              errorpos errorpos lineno lineStr ::
            src_tokenize_loop line lineno lineStr fuel (pos + 1)
      else if c.isAlpha then
        let newpos := advance_pos line pos (fun ch => ch.isAlphanum)
        let lexeme := pySlice line pos newpos
        let ttype := (src_token_map lexeme).getD tokens.IDENTIFIER
        Token.mk ttype lexeme pos (newpos - 1) lineno lineStr ::
          src_tokenize_loop line lineno lineStr fuel newpos
      else if c.isDigit then
        let p1 := advance_pos line pos (fun ch => ch.isDigit)
        let p2 :=
          match charAt line p1 with
          | some ch => if ch == '.' then advance_pos line (p1 + 1) (fun ch2 => ch2.isDigit) else p1
          | none => p1
        Token.mk tokens.NUMBER (pySlice line pos p2) pos (p2 - 1) lineno lineStr ::
          src_tokenize_loop line lineno lineStr fuel p2
      else if c == '"' then
        match pyFind line '"' (pos + 1) with
        | none =>
          [Token.mk tokens.ERROR ("EOL while scanning string literal") pos (line.length - 1) lineno lineStr]
        | some q =>
          let lexeme := pySlice line pos (q + 1)
          let inner := (lexeme.toList.drop 1).dropLast
          let tok :=
            if inner.any (fun ch => !legal_string_characters ch) then
              Token.mk tokens.ERROR ("Illegal characters found in string") pos q lineno lineStr
            else
              Token.mk tokens.STRING lexeme pos q lineno lineStr
          tok :: src_tokenize_loop line lineno lineStr fuel (q + 1)
      else
        Token.mk tokens.ERROR ("Illegal character \x27" ++ String.mk [c] ++ "\x27 encountered")
            pos pos lineno lineStr ::
          src_tokenize_loop line lineno lineStr fuel (pos + 1)

def src_tokenize_line (line : String) (lineno : Nat) : List Token :=
  src_tokenize_loop line.toList lineno line (line.length + 2) 0

/-- C8: the `ececompiler` scanner strips underscores from a NUMBER lexeme
while keeping the original source span, but the `src` scanner emits the
lexeme verbatim, underscores included — contradicting the claim (and the
repository's own `scanner_tests.py`, which asserts the stripped lexeme for
the `src` scanner).  Evaluated at the failing input line `1_2`. -/
theorem c8_number_underscore_divergence :
    ece_tokenize_line ("1_2") 0 =
      [Token.mk tokens.NUMBER ("12") 0 2 0 ("1_2")] ∧
    src_tokenize_line ("1_2") 0 =
      [Token.mk tokens.NUMBER ("1_2") 0 2 0 ("1_2")] ∧
    ("1_2").toList.contains ('_') = true ∧
    ("12").toList.contains ('_') = false := by
  refine ⟨by decide, by decide, by decide, by decide⟩

/-!
Type unification (claim C3).

`Checker.unify_types` of `ececompiler/typechecker.py` works on the two type
strings directly; raising `TypeCheckError` is modelled as `none`.
`_Checker.unify_types` of `src/typechecker.py` receives two AST nodes,
computes their types and then unifies the two type strings (lines 115-134);
`uChecker_unify_types` is that unification core on the already-computed
types, with `report_error` (after which the Python function falls through
and returns `None`) modelled as `none`.
-/

/-- Python `set((a, b)) == set((c, d))` for `c ≠ d`. -/
def pySetEq2 (a b c d : String) : Bool :=
  (a == c && b == d) || (a == d && b == c)

/-- `Checker.unify_types` (ececompiler/typechecker.py lines 174-185). -/
def Checker_unify_types (type_a type_b : String) : Option String :=
  if type_a == type_b then some type_a
  else if pySetEq2 type_a type_b tokens.INT tokens.FLOAT then some tokens.FLOAT
  else if pySetEq2 type_a type_b tokens.INT tokens.BOOL then some tokens.BOOL
  else none

/-- The unification core of `_Checker.unify_types` (src/typechecker.py lines
118-134): both operand types are first collapsed `BOOL → INT`, then compared. -/
def uChecker_unify_types (ta tb : String) : Option String :=
  let type_a := if ta == tokens.BOOL then tokens.INT else ta
  let type_b := if tb == tokens.BOOL then tokens.INT else tb
  if type_a == type_b then some type_a
  else if pySetEq2 type_a type_b tokens.INT tokens.FLOAT then some tokens.FLOAT
  else none

/-- C3 counterexample: in the `src` checker, `int` unified with `bool`
yields `int` (not `bool` as claimed), and `bool` unified with `float` yields
`float` (not an incompatible-types error as claimed); even `bool` with
`bool` yields `int`. -/
theorem c3_counterexample :
    uChecker_unify_types tokens.INT tokens.BOOL = some tokens.INT ∧
    uChecker_unify_types tokens.BOOL tokens.FLOAT = some tokens.FLOAT ∧
    uChecker_unify_types tokens.BOOL tokens.BOOL = some tokens.INT ∧
    some tokens.INT ≠ some tokens.BOOL := by
  refine ⟨by decide, by decide, by decide, by decide⟩

/-- C3 amended: the claimed table holds for `Checker.unify_types` of
`ececompiler/typechecker.py` (symmetric; `T` with `T` gives `T`; int-float
gives float; int-bool gives bool; every other unequal pair errors), while
`_Checker.unify_types` of `src/typechecker.py` first collapses `bool` to
`int`, so int-bool and bool-bool give `int`, bool-float gives `float`, and
only the pairs involving `string` error.  Both full 4 x 4 tables: -/
theorem c3_unify_tables :
    (Checker_unify_types tokens.INT tokens.INT = some tokens.INT ∧
     Checker_unify_types tokens.FLOAT tokens.FLOAT = some tokens.FLOAT ∧
     Checker_unify_types tokens.BOOL tokens.BOOL = some tokens.BOOL ∧
     Checker_unify_types tokens.STRING_TYPE tokens.STRING_TYPE = some tokens.STRING_TYPE ∧
     Checker_unify_types tokens.INT tokens.FLOAT = some tokens.FLOAT ∧
     Checker_unify_types tokens.FLOAT tokens.INT = some tokens.FLOAT ∧
     Checker_unify_types tokens.INT tokens.BOOL = some tokens.BOOL ∧
     Checker_unify_types tokens.BOOL tokens.INT = some tokens.BOOL ∧
     Checker_unify_types tokens.BOOL tokens.FLOAT = none ∧
     Checker_unify_types tokens.FLOAT tokens.BOOL = none ∧
     Checker_unify_types tokens.STRING_TYPE tokens.INT = none ∧
     Checker_unify_types tokens.INT tokens.STRING_TYPE = none ∧
     Checker_unify_types tokens.STRING_TYPE tokens.FLOAT = none ∧
     Checker_unify_types tokens.FLOAT tokens.STRING_TYPE = none ∧
     Checker_unify_types tokens.STRING_TYPE tokens.BOOL = none ∧
     Checker_unify_types tokens.BOOL tokens.STRING_TYPE = none) ∧
    (uChecker_unify_types tokens.INT tokens.INT = some tokens.INT ∧
     uChecker_unify_types tokens.FLOAT tokens.FLOAT = some tokens.FLOAT ∧
     uChecker_unify_types tokens.BOOL tokens.BOOL = some tokens.INT ∧
     uChecker_unify_types tokens.STRING_TYPE tokens.STRING_TYPE = some tokens.STRING_TYPE ∧
     uChecker_unify_types tokens.INT tokens.FLOAT = some tokens.FLOAT ∧
     uChecker_unify_types tokens.FLOAT tokens.INT = some tokens.FLOAT ∧
     uChecker_unify_types tokens.INT tokens.BOOL = some tokens.INT ∧
     uChecker_unify_types tokens.BOOL tokens.INT = some tokens.INT ∧
     uChecker_unify_types tokens.BOOL tokens.FLOAT = some tokens.FLOAT ∧
     uChecker_unify_types tokens.FLOAT tokens.BOOL = some tokens.FLOAT ∧
     uChecker_unify_types tokens.STRING_TYPE tokens.INT = none ∧
     uChecker_unify_types tokens.INT tokens.STRING_TYPE = none ∧
     uChecker_unify_types tokens.STRING_TYPE tokens.FLOAT = none ∧
     uChecker_unify_types tokens.FLOAT tokens.STRING_TYPE = none ∧
     uChecker_unify_types tokens.STRING_TYPE tokens.BOOL = none ∧
     uChecker_unify_types tokens.BOOL tokens.STRING_TYPE = none) := by
  exact ⟨by decide, by decide⟩

/-!
Parser embedding (`src/parser.py`).

The parser is modelled as a state-and-exception monad over the token stream.
`ParseError` is the failure kind `perr`; an uncaught host exception
(`StopIteration` when advancing past the end of the stream, attribute access
on a `None` token, or the `NameError` in `if_statement` after a recovered
error in its body) is the failure kind `crash`; the Python recursion is
unbounded, so every recursive production takes fuel and exhaustion is the
failure kind `fuel`.  Diagnostic message text and token spans in messages
are not modelled.
-/

inductive PFailKind where
  | perr
  | crash
  | fuel
  deriving Repr, DecidableEq

structure ParserSt where
  token : Option Token
  next_token : Option Token
  pairs : List (Option Token × Option Token)
  errors : Nat
  deriving Repr

def PM (α : Type) : Type := ParserSt → (Sum α PFailKind) × ParserSt

instance : Monad PM where
  pure a := fun st => (.inl a, st)
  bind m f := fun st =>
    match m st with
    | (.inl a, st') => f a st'
    | (.inr e, st') => (.inr e, st')

def throwP {α : Type} (k : PFailKind) : PM α := fun st => (.inr k, st)

def getP : PM ParserSt := fun st => (.inl st, st)

/-- Python `self.token` with an attribute access: `None.type` crashes. -/
def curTok : PM Token := fun st =>
  match st.token with
  | some t => (.inl t, st)
  | none => (.inr .crash, st)

def curType : PM String := do
  let t ← curTok
  pure t.type_

/-- Python `self.next_token.type`: crashes when the lookahead is `None`. -/
def nextType : PM String := fun st =>
  match st.next_token with
  | some t => (.inl t.type_, st)
  | none => (.inr .crash, st)

/-- The `itertools.izip_longest(*itertools.tee(...))` pairing: the stream of
`(token, lookahead)` pairs, the lookahead of the final token being `None`. -/
def mkPairs : List Token → List (Option Token × Option Token)
  | [] => []
  | t :: rest =>
    match rest with
    | [] => [(some t, none)]
    | u :: _ => (some t, some u) :: mkPairs rest

/-- `advance_token`: `next(self._token_iter)`; advancing past the end of the
stream raises `StopIteration` (a crash). -/
def advance_token : PM Unit := fun st =>
  match st.pairs with
  | [] => (.inr .crash, st)
  | p :: rest => (.inl (), { st with token := p.1, next_token := p.2, pairs := rest })

/-- `match`: guard against an unexpected EOF lookahead, advance, and check
the new current token (an ERROR token or a type mismatch raises
`ParseError`; the `custom_exception` variant raises a `ParseError` too). -/
def matchTok (token_type : String) : PM Unit := do
  let st ← getP
  match st.next_token with
  | some nt => if nt.type_ == tokens.EOF then throwP .perr else pure ()
  | none => pure ()
  advance_token
  let t ← curType
  if t == tokens.ERROR then throwP .perr
  else if t != token_type then throwP .perr
  else pure ()

def consume_optional_token (tok : String) : PM Bool := do
  let t ← curType
  if t == tok then do
    advance_token
    pure true
  else pure false

/-- The advancing loop of `resync_point`: skip tokens until the lookahead is
in the follow set (EOF included).  ERROR tokens passed over are printed but
recorded nowhere, so they do not touch the error count. -/
def resyncAdvance (followset : List String) : Nat → PM Unit
  | 0 => throwP .fuel
  | fuel + 1 => do
    let nt ← nextType
    if followset.contains nt then pure ()
    else do
      advance_token
      resyncAdvance followset fuel

/-- `resync_point`: run the body; on `ParseError` print it, set
`error_encountered` (modelled by incrementing the error count, whose
positivity is exactly the flag) and skip to the follow set, yielding `none`
so the caller continues without a parsed item. -/
def resync_point {α : Type} (fuel : Nat) (followset : List String) (body : PM α) :
    PM (Option α) := fun st =>
  match body st with
  | (.inl a, st') => (.inl (some a), st')
  | (.inr .perr, st') =>
    (match resyncAdvance (followset ++ [tokens.EOF]) fuel { st' with errors := st'.errors + 1 } with
     | (.inl _, st'') => (.inl none, st'')
     | (.inr e, st'') => (.inr e, st''))
  | (.inr e, st') => (.inr e, st')

/-- Precedences of the `expression_operators` map (`Symbol.precedence` is 0,
including the autovivified symbols for tokens that cannot occur in an
expression). -/
def precOf (ty : String) : Nat :=
  if ty == tokens.OR || ty == tokens.AND || ty == tokens.NOT then 1
  else if ty == tokens.PLUS || ty == tokens.MINUS then 2
  else if ty == tokens.LT || ty == tokens.GTE || ty == tokens.LTE || ty == tokens.GT
      || ty == tokens.EQUAL || ty == tokens.NOTEQUAL then 3
  else if ty == tokens.MULTIPLY || ty == tokens.DIVIDE then 4
  else if ty == tokens.OPENPAREN || ty == tokens.OPENBRACKET then 5
  else 0

mutual

/-- `_Parser.expression`: advance, run the prefix action of the current
symbol, then fold infix actions while the lookahead binds tighter. -/
def expression : Nat → Nat → PM Node
  | 0, _ => throwP .fuel
  | fuel + 1, precedence => do
    advance_token
    let left ← prefixAction fuel
    exprLoop fuel precedence left

/-- The prefix (`nud`) actions of the symbol classes, dispatched on the
current token as `get_symbol` does: literal kinds first, then the ERROR
check, then the operator map (`Symbol.prefix` raises for symbols without a
prefix action).  `TrueVal`/`FalseVal` return the bare token-kind strings. -/
def prefixAction : Nat → PM Node
  | 0 => throwP .fuel
  | fuel + 1 => do
    let t ← curTok
    if t.type_ == tokens.NUMBER then pure (.Num t.token)
    else if t.type_ == tokens.IDENTIFIER then pure (.Name t.token none)
    else if t.type_ == tokens.STRING then pure (.Str t.token)
    else if t.type_ == tokens.ERROR then throwP .perr
    else if t.type_ == tokens.TRUE then pure (.PyStrTok tokens.TRUE)
    else if t.type_ == tokens.FALSE then pure (.PyStrTok tokens.FALSE)
    else if t.type_ == tokens.NOT then do
      let e ← expression fuel 1
      pure (.UnaryOp tokens.NOT e none)
    else if t.type_ == tokens.MINUS then do
      let e ← expression fuel 7
      pure (.UnaryOp tokens.MINUS e none)
    else if t.type_ == tokens.OPENPAREN then do
      let e ← expression fuel 0
      matchTok tokens.CLOSEPAREN
      pure e
    else throwP .perr

/-- The `while precedence < self.next_symbol.precedence` loop.  Evaluating
`next_symbol` calls `get_symbol(self.next_token)`, which crashes on a `None`
lookahead and raises `ParseError` when the current token is an ERROR token
and the lookahead is not a literal kind. -/
def exprLoop : Nat → Nat → Node → PM Node
  | 0, _, _ => throwP .fuel
  | fuel + 1, precedence, left => do
    let st ← getP
    match st.next_token with
    | none => throwP .crash
    | some nt => do
      if !([tokens.NUMBER, tokens.IDENTIFIER, tokens.STRING].contains nt.type_) then do
        let ct ← curType
        if ct == tokens.ERROR then throwP .perr else pure ()
      else pure ()
      if precedence < precOf nt.type_ then do
        advance_token
        let left' ← infixAction fuel left
        exprLoop fuel precedence left'
      else pure left

/-- The infix (`led`) actions: binary operators recurse at their own
precedence (left association), `[` parses a subscript; everything else —
including `(`, whose call action is commented out in the source — raises. -/
def infixAction : Nat → Node → PM Node
  | 0, _ => throwP .fuel
  | fuel + 1, left => do
    let t ← curTok
    let ty := t.type_
    if ty == tokens.OR || ty == tokens.AND then do
      let r ← expression fuel 1
      pure (.BinaryOp ty left r none)
    else if ty == tokens.PLUS || ty == tokens.MINUS then do
      let r ← expression fuel 2
      pure (.BinaryOp ty left r none)
    else if ty == tokens.LT || ty == tokens.GTE || ty == tokens.LTE || ty == tokens.GT
        || ty == tokens.EQUAL || ty == tokens.NOTEQUAL then do
      let r ← expression fuel 3
      pure (.BinaryOp ty left r none)
    else if ty == tokens.MULTIPLY || ty == tokens.DIVIDE then do
      let r ← expression fuel 4
      pure (.BinaryOp ty left r none)
    else if ty == tokens.OPENBRACKET then do
      let ix ← expression fuel 0
      matchTok tokens.CLOSEBRACKET
      pure (.Subscript left ix none)
    else throwP .perr

/-- `_Parser.declarations` / `_Parser.statements` loops and the statement
and declaration productions. -/
def declarationsLoop : Nat → List Node → PM (List Node)
  | 0, _ => throwP .fuel
  | fuel + 1, acc => do
    let nt ← nextType
    if nt == tokens.BEGIN || nt == tokens.EOF then pure acc
    else do
      let d? ← resync_point fuel [tokens.SEMICOLON] (declaration fuel)
      let acc' := match d? with
        | some d => acc ++ [d]
        | none => acc
      matchTok tokens.SEMICOLON
      declarationsLoop fuel acc'

def declaration : Nat → PM Node
  | 0 => throwP .fuel
  | fuel + 1 => do
    advance_token
    let ct ← curType
    if ct == tokens.PROCEDURE then procedure_declaration fuel
    else do
      let nt ← nextType
      if nt == tokens.PROCEDURE then procedure_declaration fuel
      else variable_declaration fuel

def parameter : Nat → PM Node
  | 0 => throwP .fuel
  | fuel + 1 => do
    advance_token
    let decl ← variable_declaration fuel
    advance_token
    let ct ← curType
    if ct == tokens.IN || ct == tokens.OUT then pure (.Param decl ct)
    else throwP .perr

def procedure_declaration : Nat → PM Node
  | 0 => throwP .fuel
  | fuel + 1 => do
    let g ← consume_optional_token tokens.GLOBAL
    let ct ← curType
    if ct != tokens.PROCEDURE then throwP .perr else pure ()
    matchTok tokens.IDENTIFIER
    let t ← curTok
    let name := Node.Name t.token none
    matchTok tokens.OPENPAREN
    let nt ← nextType
    let params ←
      if nt != tokens.CLOSEPAREN then do
        let p ← parameter fuel
        paramsLoop fuel [p]
      else pure []
    matchTok tokens.CLOSEPAREN
    let decls ← declarationsLoop fuel []
    matchTok tokens.BEGIN
    let body ← statementsLoop fuel []
    matchTok tokens.END
    matchTok tokens.PROCEDURE
    pure (.ProcDecl g name params decls body)

def paramsLoop : Nat → List Node → PM (List Node)
  | 0, _ => throwP .fuel
  | fuel + 1, acc => do
    let nt ← nextType
    if nt == tokens.COMMA then do
      advance_token
      let p ← parameter fuel
      paramsLoop fuel (acc ++ [p])
    else pure acc

def variable_declaration : Nat → PM Node
  | 0 => throwP .fuel
  | _fuel + 1 => do
    let g ← consume_optional_token tokens.GLOBAL
    let ct ← curType
    if ct == tokens.INT || ct == tokens.FLOAT || ct == tokens.BOOL
        || ct == tokens.STRING_TYPE then do
      matchTok tokens.IDENTIFIER
      let t ← curTok
      let name := Node.Name t.token none
      let nt ← nextType
      if nt == tokens.OPENBRACKET then do
        advance_token
        matchTok tokens.NUMBER
        let sz ← curTok
        matchTok tokens.CLOSEBRACKET
        pure (.VarDecl g ct name (some (.PyStrTok sz.token)))
      else pure (.VarDecl g ct name none)
    else throwP .perr

def statementsLoop : Nat → List Node → PM (List Node)
  | 0, _ => throwP .fuel
  | fuel + 1, acc => do
    let nt ← nextType
    if nt == tokens.END || nt == tokens.ELSE then pure acc
    else do
      let s? ← resync_point fuel [tokens.SEMICOLON] (statement fuel)
      let acc' := match s? with
        | some s => acc ++ [s]
        | none => acc
      matchTok tokens.SEMICOLON
      statementsLoop fuel acc'

def statement : Nat → PM Node
  | 0 => throwP .fuel
  | fuel + 1 => do
    advance_token
    let ct ← curType
    if ct == tokens.IF then if_statement fuel
    else if ct == tokens.FOR then for_statement fuel
    else if ct == tokens.RETURN then pure .ReturnTok
    else if ct == tokens.IDENTIFIER then do
      let nt ← nextType
      if nt == tokens.ASSIGN then assignment_statement fuel
      else if nt == tokens.OPENPAREN then procedure_call fuel
      else throwP .perr
    else throwP .perr

def procedure_call : Nat → PM Node
  | 0 => throwP .fuel
  | fuel + 1 => do
    let t ← curTok
    let name := Node.Name t.token none
    matchTok tokens.OPENPAREN
    let nt ← nextType
    let args ←
      if nt != tokens.CLOSEPAREN then do
        let e ← expression fuel 0
        argsLoop fuel [e]
      else pure []
    matchTok tokens.CLOSEPAREN
    pure (.Call name args)

def argsLoop : Nat → List Node → PM (List Node)
  | 0, _ => throwP .fuel
  | fuel + 1, acc => do
    let nt ← nextType
    if nt == tokens.COMMA then do
      advance_token
      let e ← expression fuel 0
      argsLoop fuel (acc ++ [e])
    else pure acc

def assignment_statement : Nat → PM Node
  | 0 => throwP .fuel
  | fuel + 1 => do
    let t ← curTok
    if t.type_ != tokens.IDENTIFIER then throwP .perr else pure ()
    let target := Node.Name t.token none
    matchTok tokens.ASSIGN
    let value ← expression fuel 0
    pure (.Assign target value)

def if_statement : Nat → PM Node
  | 0 => throwP .fuel
  | fuel + 1 => do
    matchTok tokens.OPENPAREN
    let test ← expression fuel 0
    matchTok tokens.CLOSEPAREN
    matchTok tokens.THEN
    let body? ← resync_point fuel [tokens.SEMICOLON] (statementsLoop fuel [])
    match body? with
    | none => throwP .crash
    | some body =>
      if body.isEmpty then throwP .perr
      else do
        let nt ← nextType
        let orelse ←
          if nt == tokens.ELSE then do
            advance_token
            let o? ← resync_point fuel [tokens.SEMICOLON] (statementsLoop fuel [])
            match o? with
            | none => throwP .crash
            | some o => if o.isEmpty then throwP .perr else pure o
          else pure []
        matchTok tokens.END
        matchTok tokens.IF
        pure (.If test body orelse)

def for_statement : Nat → PM Node
  | 0 => throwP .fuel
  | fuel + 1 => do
    matchTok tokens.OPENPAREN
    advance_token
    let a ← assignment_statement fuel
    matchTok tokens.SEMICOLON
    let test ← expression fuel 0
    matchTok tokens.CLOSEPAREN
    let body ← statementsLoop fuel []
    matchTok tokens.END
    matchTok tokens.FOR
    pure (.For a test body)

end

inductive PRes where
  | okP (p : Node)
  | failedP
  | crashedP
  | fuelOutP
  deriving Repr

/-- The body of `_Parser.parse` up to the error check: the `program`
production. -/
def parseBody (fuel : Nat) : PM Node := do
  matchTok tokens.PROGRAM
  matchTok tokens.IDENTIFIER
  let t ← curTok
  let name := Node.Name t.token none
  matchTok tokens.IS
  let decls ← declarationsLoop fuel []
  matchTok tokens.BEGIN
  let body ← statementsLoop fuel []
  matchTok tokens.END
  matchTok tokens.PROGRAM
  pure (.Program name decls body)

def initSt (ts : List Token) : ParserSt := ⟨none, none, mkPairs ts, 0⟩

/-- `_Parser.parse` / `parse_tokens`: after the program production, if any
error was recorded (`error_encountered` is set exactly when a resync point
records an error, so at this check it is true iff the error count is
positive; the only other increment, for the uncaught `ParseError` printed by
the top-level handler, happens on the failing path below), raise
`ParseFailedError`; an uncaught `ParseError` also fails after being printed
(counted). -/
def parse_tokens (ts : List Token) (fuel : Nat) : PRes × ParserSt :=
  match parseBody fuel (initSt ts) with
  | (.inl prog, st) => if st.errors > 0 then (.failedP, st) else (.okP prog, st)
  | (.inr .perr, st) => (.failedP, { st with errors := st.errors + 1 })
  | (.inr .crash, st) => (.crashedP, st)
  | (.inr .fuel, st) => (.fuelOutP, st)

/-- A token with the spans that the claims do not depend on zeroed. -/
def mkTok (ty lex : String) : Token := ⟨ty, lex, 0, 0, 0, ""⟩

/-- `_Parser(stream).expression()`, as the parser test harness runs it. -/
def parse_expression (ts : List Token) (fuel : Nat) : Option Node :=
  match expression fuel 0 (initSt ts) with
  | (.inl n, _) => some n
  | _ => none

/-- C4: for all identifiers `a` and `b`, parsing `-a * b` yields
`BinaryOp('*', UnaryOp('-', Name(a)), Name(b))`: the prefix-minus action
parses its operand at precedence 7, above every binary precedence, so the
unary minus binds tighter than `*`. -/
theorem c4_unary_minus_binds_tighter (a b : String) :
    parse_expression
      [mkTok tokens.MINUS ("-"), mkTok tokens.IDENTIFIER a,
       mkTok tokens.MULTIPLY ("*"), mkTok tokens.IDENTIFIER b,
       mkTok tokens.EOF ("EOF")] 50 =
    some (.BinaryOp tokens.MULTIPLY (.UnaryOp tokens.MINUS (.Name a none) none)
            (.Name b none) none) := by
  rfl

/-- C7: a `Program` node is produced only when zero parse errors were
recorded (including errors recovered at resync points), and whenever the
parse fails with `ParseFailedError`, at least one error was recorded. -/
theorem c7_parse_fails_iff_errors (ts : List Token) (fuel : Nat) :
    (∀ p : Node, (parse_tokens ts fuel).1 = .okP p → (parse_tokens ts fuel).2.errors = 0) ∧
    ((parse_tokens ts fuel).1 = .failedP → 0 < (parse_tokens ts fuel).2.errors) := by
  unfold parse_tokens
  rcases hx : parseBody fuel (initSt ts) with ⟨r | k, st⟩
  · by_cases he : st.errors > 0
    · simp [he]
    · simp [he, Nat.eq_zero_of_not_pos he]
  · cases k <;> simp

/-- Witness for C7: the minimal program parses to a `Program` node with zero
recorded errors. -/
theorem c7_parse_fails_iff_errors_witness :
    (parse_tokens
      [mkTok tokens.PROGRAM ("program"), mkTok tokens.IDENTIFIER ("p"),
       mkTok tokens.IS ("is"), mkTok tokens.BEGIN ("begin"),
       mkTok tokens.END ("end"), mkTok tokens.PROGRAM ("program"),
       mkTok tokens.EOF ("EOF")] 50).2.errors = 0 :=
  (c7_parse_fails_iff_errors
      [mkTok tokens.PROGRAM ("program"), mkTok tokens.IDENTIFIER ("p"),
       mkTok tokens.IS ("is"), mkTok tokens.BEGIN ("begin"),
       mkTok tokens.END ("end"), mkTok tokens.PROGRAM ("program"),
       mkTok tokens.EOF ("EOF")] 50).1
    (.Program (.Name ("p") none) [] []) (by rfl)

/-!
Optimizer embedding (`src/optimizer.py`).

`ConstantFolder.visit_binary_op` and `visit_unary_op` evaluate the folded
expression with the host `eval` on the operand lexemes.  `pyEvalBin` and
`pyEvalUnary` model that `eval` for integer-literal operands and the
operator lexemes the parser produces.  Boundaries of the model (none of
which any claim depends on): float lexemes and non-numeric lexemes are left
unfolded (Python would compute IEEE floats, or treat `True`/`False` as
ints); division by zero is left unfolded (Python raises
`ZeroDivisionError`, crashing the compiler); bitwise `&`/`|` on negative
operands is left unfolded.
-/

inductive PyEvalRes where
  | rInt (i : Int)
  | rBool (b : Bool)
  deriving Repr

def parseNatDigits : List Char → Nat → Option Nat
  | [], acc => some acc
  | c :: rest, acc =>
    if c.isDigit then parseNatDigits rest (acc * 10 + (c.toNat - 48)) else none

/-- The value of an integer literal as the host `eval` reads it (an optional
sign followed by decimal digits; the lexemes the scanner and the folder
produce have this shape). -/
def parseIntLexeme (s : String) : Option Int :=
  match s.toList with
  | [] => none
  | '-' :: rest =>
    match rest with
    | [] => none
    | _ => (parseNatDigits rest 0).map (fun n => -(Int.ofNat n))
  | cs => (parseNatDigits cs 0).map Int.ofNat

/-- Host `eval` of `'%s %s %s' % (left, op, right)` on integer literals. -/
def pyEvalBin (left op right : String) : Option PyEvalRes :=
  match parseIntLexeme left, parseIntLexeme right with
  | some l, some r =>
    if op == "+" then some (.rInt (l + r))
    else if op == "-" then some (.rInt (l - r))
    else if op == "*" then some (.rInt (l * r))
    else if op == "/" then
      if r == 0 then none else some (.rInt (Int.fdiv l r))
    else if op == "&" then
      match l, r with
      | .ofNat a, .ofNat b => some (.rInt (Int.ofNat (Nat.land a b)))
      | _, _ => none
    else if op == "|" then
      match l, r with
      | .ofNat a, .ofNat b => some (.rInt (Int.ofNat (Nat.lor a b)))
      | _, _ => none
    else if op == "<" then some (.rBool (decide (l < r)))
    else if op == "<=" then some (.rBool (decide (l ≤ r)))
    else if op == ">" then some (.rBool (decide (r < l)))
    else if op == ">=" then some (.rBool (decide (r ≤ l)))
    else if op == "==" then some (.rBool (decide (l = r)))
    else if op == "!=" then some (.rBool (decide (l ≠ r)))
    else none
  | _, _ => none

/-- `visit_binary_op`'s use of the result: `True` is `Num('1')`, `False` is
`Num('0')`, anything else is `Num(str(result))`. -/
def foldBinResult : PyEvalRes → Node
  | .rBool true => .Num ("1")
  | .rBool false => .Num ("0")
  | .rInt i => .Num (toString i)

/-- Host `str(eval('%s %s' % (op, operand)))` on an integer literal.  Note
that Python `not` is the logical negation: it yields the booleans
`True`/`False`, whose `str` is the text `True`/`False` — not a bitwise
complement. -/
def pyEvalUnary (op operand : String) : Option String :=
  match parseIntLexeme operand with
  | some v =>
    if op == "-" then some (toString (-v))
    else if op == "not" then some (if v == 0 then "True" else "False")
    else none
  | none => none

/-- `ConstantFolder.get_const`. -/
def cfGetConst : Node → Option String
  | .Num s => some s
  | _ => none

/-- `ConstantFolder.is_literal`. -/
def is_literal : Node → Bool
  | .Num _ => true
  | .Str _ => true
  | _ => false

/-- Set the `modified_tree` flag when a replacement compares unequal. -/
def orFlag (st : Bool) (changed : Bool) : Bool := st || changed

mutual

/-- `TreeWalker._visit` for `ConstantFolder`: `BinaryOp` and `UnaryOp` are
registered; other AST nodes get the generic `TreeMutator.visit_children`;
plain strings in node position are returned unchanged. -/
def cf_visit : Nat → Bool → Node → (Node × Bool)
  | 0, st, n => (n, st)
  | fuel + 1, st, n =>
    match n with
    | .BinaryOp op l r nt =>
      -- visit_binary_op: fold children first, flagging replacements
      let (l', st1) := cf_visit fuel st l
      let st1b := orFlag st1 (!nodeEq l l')
      let (r', st2) := cf_visit fuel st1b r
      let st2b := orFlag st2 (!nodeEq r r')
      (match cfGetConst l' with
       | some lv =>
         match cfGetConst r' with
         | some rv =>
           match pyEvalBin lv op rv with
           | some res => (foldBinResult res, st2b)
           | none => (.BinaryOp op l' r' nt, st2b)
         | none => (.BinaryOp op l' r' nt, st2b)
       | none => (.BinaryOp op l' r' nt, st2b))
    | .UnaryOp op x nt =>
      -- visit_unary_op
      let (x', st1) := cf_visit fuel st x
      let st1b := orFlag st1 (!nodeEq x x')
      (match cfGetConst x' with
       | some v =>
         match pyEvalUnary op v with
         | some s => (.Num s, st1b)
         | none => (.UnaryOp op x' nt, st1b)
       | none => (.UnaryOp op x' nt, st1b))
    | .ReturnTok => (n, st)
    | .PyStrTok s => (.PyStrTok s, st)
    | _ => cf_visit_children fuel st n
termination_by structural fuel => fuel

/-- `TreeMutator.visit_children` for `ConstantFolder`: visit every node
field and node list in slot order, replace, and flag unequal replacements.
String, bool and `None` fields are skipped, as is an `array_length` that
holds a bare size string. -/
def cf_visit_children : Nat → Bool → Node → (Node × Bool)
  | 0, st, n => (n, st)
  | fuel + 1, st, n =>
    match n with
    | .Program name decls body =>
      let (name', st1) := cf_visit fuel st name
      let st1b := orFlag st1 (!nodeEq name name')
      let (decls', st2) := cf_visit_list fuel st1b decls
      let st2b := orFlag st2 (!nodeListEq decls decls')
      let (body', st3) := cf_visit_list fuel st2b body
      (.Program name' decls' body', orFlag st3 (!nodeListEq body body'))
    | .VarDecl g ty name len? =>
      let (name', st1) := cf_visit fuel st name
      let st1b := orFlag st1 (!nodeEq name name')
      (match len? with
       | some a =>
         if isAstNode a then
           let (a', st2) := cf_visit fuel st1b a
           (.VarDecl g ty name' (some a'), orFlag st2 (!nodeEq a a'))
         else (.VarDecl g ty name' (some a), st1b)
       | none => (.VarDecl g ty name' none, st1b))
    | .ProcDecl g name params decls body =>
      let (name', st1) := cf_visit fuel st name
      let st1b := orFlag st1 (!nodeEq name name')
      let (params', st2) := cf_visit_list fuel st1b params
      let st2b := orFlag st2 (!nodeListEq params params')
      let (decls', st3) := cf_visit_list fuel st2b decls
      let st3b := orFlag st3 (!nodeListEq decls decls')
      let (body', st4) := cf_visit_list fuel st3b body
      (.ProcDecl g name' params' decls' body', orFlag st4 (!nodeListEq body body'))
    | .Param vd dir =>
      let (vd', st1) := cf_visit fuel st vd
      (.Param vd' dir, orFlag st1 (!nodeEq vd vd'))
    | .Assign t v =>
      let (t', st1) := cf_visit fuel st t
      let st1b := orFlag st1 (!nodeEq t t')
      let (v', st2) := cf_visit fuel st1b v
      (.Assign t' v', orFlag st2 (!nodeEq v v'))
    | .If t b o =>
      let (t', st1) := cf_visit fuel st t
      let st1b := orFlag st1 (!nodeEq t t')
      let (b', st2) := cf_visit_list fuel st1b b
      let st2b := orFlag st2 (!nodeListEq b b')
      let (o', st3) := cf_visit_list fuel st2b o
      (.If t' b' o', orFlag st3 (!nodeListEq o o'))
    | .For a t b =>
      let (a', st1) := cf_visit fuel st a
      let st1b := orFlag st1 (!nodeEq a a')
      let (t', st2) := cf_visit fuel st1b t
      let st2b := orFlag st2 (!nodeEq t t')
      let (b', st3) := cf_visit_list fuel st2b b
      (.For a' t' b', orFlag st3 (!nodeListEq b b'))
    | .Call f args =>
      let (f', st1) := cf_visit fuel st f
      let st1b := orFlag st1 (!nodeEq f f')
      let (args', st2) := cf_visit_list fuel st1b args
      (.Call f' args', orFlag st2 (!nodeListEq args args'))
    | .BinaryOp op l r nt =>
      let (l', st1) := cf_visit fuel st l
      let st1b := orFlag st1 (!nodeEq l l')
      let (r', st2) := cf_visit fuel st1b r
      (.BinaryOp op l' r' nt, orFlag st2 (!nodeEq r r'))
    | .UnaryOp op x nt =>
      let (x', st1) := cf_visit fuel st x
      (.UnaryOp op x' nt, orFlag st1 (!nodeEq x x'))
    | .Subscript nm ix nt =>
      let (nm', st1) := cf_visit fuel st nm
      let st1b := orFlag st1 (!nodeEq nm nm')
      let (ix', st2) := cf_visit fuel st1b ix
      (.Subscript nm' ix' nt, orFlag st2 (!nodeEq ix ix'))
    | other => (other, st)
termination_by structural fuel => fuel

def cf_visit_list : Nat → Bool → List Node → (List Node × Bool)
  | 0, st, xs => (xs, st)
  | _ + 1, st, [] => ([], st)
  | fuel + 1, st, x :: rest =>
    let (x', st1) := cf_visit fuel st x
    let (rest', st2) := cf_visit_list fuel st1 rest
    (x' :: rest', st2)
termination_by structural fuel => fuel

end

/-- Fuel for the optimizer and code-generator walks: at least the recursion
depth of any visit on the inputs considered, with a wide margin. -/
def optFuel : Nat := 1000

/-- `ConstantFolder().walk(ast)`: the folded tree and the final
`modified_tree` flag. -/
def ConstantFolder_walk (t : Node) : Node × Bool := cf_visit optFuel false t

/-- C5: folding `not 4294967280` does not produce `Num("15")`.  The source
folds a unary operator with the host `eval`, and Python `not` on a nonzero
int yields the boolean `False`, so the fold produces `Num("False")` — not
the C-like 32-bit bitwise complement `Num("15")` that the spec (scenario 3)
and the repository's own `optimizer_tests.py` (`test_folding_unary_not`)
require. -/
theorem c5_not_folds_to_python_bool :
    (ConstantFolder_walk (.UnaryOp tokens.NOT (.Num ("4294967280")) none)).1
      = .Num ("False") ∧
    nodeEq (.Num ("False")) (.Num ("15")) = false := by
  refine ⟨by rfl, by decide⟩

/-!
`ConstantPropagator`: folding plus propagation in one program-order pass.
Scopes map identifier text to the last known literal (`Num`/`Str` node), to
`none` when invalidated or unknown, or to the `ProcDecl` node for procedure
names.  The uninitialized-read warning only flips `print_errors` off; the
printed text is not modelled.
-/

structure CPState where
  modified : Bool
  global_scope : List (String × Option Node)
  scopes : List (List (String × Option Node))
  stop_propagation : Nat
  print_errors : Bool
  deriving Repr

/-- `ConstantPropagator.define_variable`.  (States are destructured and
rebuilt field-by-field rather than updated with `with`, so that a pending
state computation is never duplicated; the results are identical.) -/
def cpDefine (st : CPState) (key : String) (v : Option Node) (is_global : Bool) : CPState :=
  match st with
  | ⟨m, g, scopes, sp, pe⟩ =>
    if is_global then ⟨m, (key, v) :: g, scopes, sp, pe⟩
    else
      match scopes with
      | sc :: rest => ⟨m, g, ((key, v) :: sc) :: rest, sp, pe⟩
      | [] => ⟨m, g, [], sp, pe⟩

/-- `ConstantPropagator.get_var`: innermost scope, then the global scope; a
name found nowhere warns once (clearing `print_errors`) and reads as `None`. -/
def cpGetVar (st : CPState) (key : String) : Option Node × CPState :=
  match st with
  | ⟨m, g, scopes, sp, pe⟩ =>
    match scopes with
    | sc :: _ =>
      (match sc.find? (fun p => p.1 == key) with
       | some p => (p.2, ⟨m, g, scopes, sp, pe⟩)
       | none =>
         match g.find? (fun p => p.1 == key) with
         | some p => (p.2, ⟨m, g, scopes, sp, pe⟩)
         | none => (none, ⟨m, g, scopes, sp, false⟩))
    | [] => (none, ⟨m, g, [], sp, pe⟩)

/-- `ConstantPropagator.get_const`: a `Num` literal directly, or the
recorded `Num` value of a `Name`. -/
def cpGetConst (st : CPState) (n : Node) : Option String × CPState :=
  match n with
  | .Num s => (some s, st)
  | .Name id _ =>
    let (v, st') := cpGetVar st id
    (match v with
     | some (.Num s) => (some s, st')
     | _ => (none, st'))
  | _ => (none, st)

mutual

/-- `TreeWalker._visit` for `ConstantPropagator` (registered visits:
Program, ProcDecl, Assign, BinaryOp, UnaryOp, If/For as `visit_jump`,
Call); everything else takes the generic mutating `visit_children`. -/
def cp_visit : Nat → CPState → Node → (Node × CPState)
  | 0, st, n => (n, st)
  | fuel + 1, st, n =>
    match n with
    | .Program nm ds bd =>
      -- visit_program: record procedure declarations, then visit children
      let st1 := ds.foldl (fun acc d =>
          match d with
          | .ProcDecl dg (.Name did _) _ _ _ => cpDefine acc did (some d) dg
          | _ => acc) st
      cp_visit_children fuel st1 (.Program nm ds bd)
    | .ProcDecl g nm ps ds bd =>
      -- visit_procdecl: new scope; own name, parameters and nested
      -- procedures defined; children visited; scope popped
      let st1 : CPState := match st with
        | ⟨m0, g0, sc0, sp0, pe0⟩ => ⟨m0, g0, [] :: sc0, sp0, pe0⟩
      let st2 := match nm with
        | .Name id _ => cpDefine st1 id (some (.ProcDecl g nm ps ds bd)) false
        | _ => st1
      let st3 := ps.foldl (fun acc p =>
          match p with
          | .Param (.VarDecl _ _ (.Name pid _) _) _ => cpDefine acc pid none false
          | _ => acc) st2
      let st4 := ds.foldl (fun acc d =>
          match d with
          | .ProcDecl _ (.Name did _) _ _ _ => cpDefine acc did (some d) false
          | _ => acc) st3
      let (n', st5) := cp_visit_children fuel st4 (.ProcDecl g nm ps ds bd)
      (n', match st5 with
        | ⟨m5, g5, sc5, sp5, pe5⟩ => ⟨m5, g5, sc5.tail, sp5, pe5⟩)
    | .Assign t v =>
      -- visit_assign: children folded first; then record a top-level
      -- literal assignment to a Name, or invalidate inside a branch/loop
      let (n', st1) := cp_visit_children fuel st (.Assign t v)
      (match n' with
       | .Assign t' v' =>
         (match t' with
          | .Name id _ =>
            (match st1 with
             | ⟨m1, g1, sc1, sp1, pe1⟩ =>
               if sp1 > 0 then (.Assign t' v', cpDefine ⟨m1, g1, sc1, sp1, pe1⟩ id none false)
               else if is_literal v' then
                 (.Assign t' v', cpDefine ⟨m1, g1, sc1, sp1, pe1⟩ id (some v') false)
               else (.Assign t' v', ⟨m1, g1, sc1, sp1, pe1⟩))
          | _ => (n', st1))
       | _ => (n', st1))
    | .If t b o =>
      -- visit_jump
      let st1 : CPState := match st with
        | ⟨m0, g0, sc0, sp0, pe0⟩ => ⟨m0, g0, sc0, sp0 + 1, pe0⟩
      let (n', st2) := cp_visit_children fuel st1 (.If t b o)
      (n', match st2 with
        | ⟨m2, g2, sc2, sp2, pe2⟩ => ⟨m2, g2, sc2, sp2 - 1, pe2⟩)
    | .For a t b =>
      -- visit_jump
      let st1 : CPState := match st with
        | ⟨m0, g0, sc0, sp0, pe0⟩ => ⟨m0, g0, sc0, sp0 + 1, pe0⟩
      let (n', st2) := cp_visit_children fuel st1 (.For a t b)
      (n', match st2 with
        | ⟨m2, g2, sc2, sp2, pe2⟩ => ⟨m2, g2, sc2, sp2 - 1, pe2⟩)
    | .BinaryOp op l r nt =>
      -- inherited visit_binary_op, with the propagator's get_const
      let (l', st1) := cpChild fuel st l
      let (r', st2) := cpChild fuel st1 r
      let (lv, st3) := cpGetConst st2 l'
      (match lv with
       | some lvv =>
         let (rv, st4) := cpGetConst st3 r'
         (match rv with
          | some rvv =>
            (match pyEvalBin lvv op rvv with
             | some res => (foldBinResult res, st4)
             | none => (.BinaryOp op l' r' nt, st4))
          | none => (.BinaryOp op l' r' nt, st4))
       | none => (.BinaryOp op l' r' nt, st3))
    | .UnaryOp op x nt =>
      -- inherited visit_unary_op
      let (x', st1) := cpChild fuel st x
      let (xv, st2) := cpGetConst st1 x'
      (match xv with
       | some v =>
         (match pyEvalUnary op v with
          | some s => (.Num s, st2)
          | none => (.UnaryOp op x' nt, st2))
       | none => (.UnaryOp op x' nt, st2))
    | .Call f args =>
      -- visit_call: no child visit; invalidate Name arguments passed to
      -- out parameters (a non-ProcDecl or missing callee would crash the
      -- Python attribute access; unreachable for type-checked trees)
      (match f with
       | .Name fid _ =>
         let (d?, st1) := cpGetVar st fid
         (match d? with
          | some (.ProcDecl _ _ ps _ _) =>
            let st2 := (ps.zip args).foldl (fun acc pa =>
                match pa.1 with
                | .Param _ dir =>
                  if dir == tokens.OUT then
                    match pa.2 with
                    | .Name aid _ => cpDefine acc aid none false
                    | _ => acc
                  else acc
                | _ => acc) st1
            (.Call f args, st2)
          | _ => (.Call f args, st1))
       | _ => (.Call f args, st))
    | .ReturnTok => (n, st)
    | .PyStrTok s => (.PyStrTok s, st)
    | _ => cp_visit_children fuel st n
termination_by structural fuel => fuel

/-- A single node field of `TreeMutator.visit_children`: visit, replace,
and flag an unequal replacement. -/
def cpChild : Nat → CPState → Node → (Node × CPState)
  | 0, st, old => (old, st)
  | fuel + 1, st, old =>
    let (n', st1) := cp_visit fuel st old
    (n', match st1 with
      | ⟨m1, g1, sc1, sp1, pe1⟩ => ⟨m1 || !nodeEq old n', g1, sc1, sp1, pe1⟩)
termination_by structural fuel => fuel

/-- A list field of `TreeMutator.visit_children`. -/
def cpListField : Nat → CPState → List Node → (List Node × CPState)
  | 0, st, xs => (xs, st)
  | fuel + 1, st, xs =>
    let (xs', st1) := cp_visit_list fuel st xs
    (xs', match st1 with
      | ⟨m1, g1, sc1, sp1, pe1⟩ => ⟨m1 || !nodeListEq xs xs', g1, sc1, sp1, pe1⟩)
termination_by structural fuel => fuel

def cp_visit_list : Nat → CPState → List Node → (List Node × CPState)
  | 0, st, xs => (xs, st)
  | _ + 1, st, [] => ([], st)
  | fuel + 1, st, x :: rest =>
    let (x', st1) := cp_visit fuel st x
    let (rest', st2) := cp_visit_list fuel st1 rest
    (x' :: rest', st2)
termination_by structural fuel => fuel

/-- `TreeMutator.visit_children` for `ConstantPropagator`. -/
def cp_visit_children : Nat → CPState → Node → (Node × CPState)
  | 0, st, n => (n, st)
  | fuel + 1, st, n =>
    match n with
    | .Program nm ds bd =>
      let (nm', st1) := cpChild fuel st nm
      let (ds', st2) := cpListField fuel st1 ds
      let (bd', st3) := cpListField fuel st2 bd
      (.Program nm' ds' bd', st3)
    | .VarDecl g ty nm len? =>
      let (nm', st1) := cpChild fuel st nm
      (match len? with
       | some a =>
         if isAstNode a then
           let (a', st2) := cpChild fuel st1 a
           (.VarDecl g ty nm' (some a'), st2)
         else (.VarDecl g ty nm' (some a), st1)
       | none => (.VarDecl g ty nm' none, st1))
    | .ProcDecl g nm ps ds bd =>
      let (nm', st1) := cpChild fuel st nm
      let (ps', st2) := cpListField fuel st1 ps
      let (ds', st3) := cpListField fuel st2 ds
      let (bd', st4) := cpListField fuel st3 bd
      (.ProcDecl g nm' ps' ds' bd', st4)
    | .Param vd dir =>
      let (vd', st1) := cpChild fuel st vd
      (.Param vd' dir, st1)
    | .Assign t v =>
      let (t', st1) := cpChild fuel st t
      let (v', st2) := cpChild fuel st1 v
      (.Assign t' v', st2)
    | .If t b o =>
      let (t', st1) := cpChild fuel st t
      let (b', st2) := cpListField fuel st1 b
      let (o', st3) := cpListField fuel st2 o
      (.If t' b' o', st3)
    | .For a t b =>
      let (a', st1) := cpChild fuel st a
      let (t', st2) := cpChild fuel st1 t
      let (b', st3) := cpListField fuel st2 b
      (.For a' t' b', st3)
    | .Call f args =>
      let (f', st1) := cpChild fuel st f
      let (args', st2) := cpListField fuel st1 args
      (.Call f' args', st2)
    | .BinaryOp op l r nt =>
      let (l', st1) := cpChild fuel st l
      let (r', st2) := cpChild fuel st1 r
      (.BinaryOp op l' r' nt, st2)
    | .UnaryOp op x nt =>
      let (x', st1) := cpChild fuel st x
      (.UnaryOp op x' nt, st1)
    | .Subscript nm ix nt =>
      let (nm', st1) := cpChild fuel st nm
      let (ix', st2) := cpChild fuel st1 ix
      (.Subscript nm' ix' nt, st2)
    | other => (other, st)
termination_by structural fuel => fuel

end

/-!
`DeadCodeEliminator`: a top-down, right-to-left walk marking names as
referenced or assigned, dropping dead assignments, branches, declarations
and unreachable code after a top-level `return`.  Scope values are the ints
`ASSIGNED = 1` / `REFERENCED = 2`, `None`, or a `(decl, referenced?)` pair
for procedures.
-/

inductive DVal where
  | dInt (v : Nat)
  | dNone
  | dProc (decl : Node) (r : Option Nat)
  deriving Repr

structure DCEState where
  modified : Bool
  global_scope : List (String × DVal)
  scopes : List (List (String × DVal))
  deriving Repr

def dceDefine (st : DCEState) (key : String) (v : DVal) (is_global : Bool) : DCEState :=
  match st with
  | ⟨m, g, scopes⟩ =>
    if is_global then ⟨m, (key, v) :: g, scopes⟩
    else
      match scopes with
      | sc :: rest => ⟨m, g, ((key, v) :: sc) :: rest⟩
      | [] => ⟨m, g, []⟩

def dceGetVar (st : DCEState) (key : String) : Option DVal :=
  match st with
  | ⟨_, g, scopes⟩ =>
    match scopes with
    | sc :: _ =>
      (match sc.find? (fun p => p.1 == key) with
       | some p => some p.2
       | none => (g.find? (fun p => p.1 == key)).map (fun p => p.2))
    | [] => (g.find? (fun p => p.1 == key)).map (fun p => p.2)

/-- The three shapes a `TreeMutator` visit can return: a replacement node,
`None` (remove from the parent list), or a list (spliced into the parent
list). -/
inductive DRes where
  | dnode (n : Node)
  | dnone
  | dlist (xs : List Node)
  deriving Repr

mutual

/-- `TreeWalker._visit` for `DeadCodeEliminator` (registered visits:
Program/ProcDecl as `visit_block`, Assign, Name, Call, If, For, VarDecl);
other AST nodes take the generic `visit_children`. -/
def dce_visit : Nat → DCEState → Node → (DRes × DCEState)
  | 0, st, n => (.dnode n, st)
  | fuel + 1, st, n =>
    match n with
    | .Program nm ds bd => dce_visit_block fuel st (.Program nm ds bd)
    | .ProcDecl g nm ps ds bd => dce_visit_block fuel st (.ProcDecl g nm ps ds bd)
    | .Assign t v =>
      -- visit_assign: keep only if the target is currently referenced.
      -- (The right-hand side is NOT walked, so names it reads are never
      -- marked.)  A kept Subscript target would crash Python's dict
      -- insertion (Node.__hash__ is None); only Name targets are keyed.
      let key? := match t with
        | .Name id _ => some id
        | .Subscript (.Name id _) _ _ => some id
        | _ => none
      (match key? with
       | some key =>
         (match dceGetVar st key with
          | some (.dInt 2) =>
            let st' := match t with
              | .Name id _ => dceDefine st id (.dInt 1) false
              | _ => st
            (.dnode (.Assign t v), st')
          | _ => (.dnone, st))
       | none => (.dnode (.Assign t v), st))
    | .Name id nt => (.dnode (.Name id nt), dceDefine st id (.dInt 2) false)
    | .Call f args =>
      -- visit_call: mark the callee referenced; mark Name arguments
      -- referenced (in) or assigned (out)
      (match f with
       | .Name fid _ =>
         (match dceGetVar st fid with
          | some (.dProc d _) =>
            let ps := match d with
              | .ProcDecl _ _ ps _ _ => ps
              | _ => []
            let st1 := dceDefine st fid (.dProc d (some 2)) false
            let st2 := (args.zip ps).foldl (fun acc ap =>
                match ap.1 with
                | .Name aid _ =>
                  (match ap.2 with
                   | .Param _ dir =>
                     dceDefine acc aid (if dir == tokens.IN then .dInt 2 else .dInt 1) false
                   | _ => acc)
                | _ => acc) st1
            (.dnode (.Call f args), st2)
          | _ => (.dnode (.Call f args), st))
       | _ => (.dnode (.Call f args), st))
    | .If t b o => dce_visit_if fuel st t b o
    | .For a t b =>
      -- visit_for: a loop with test Num('0') is dropped; otherwise the
      -- test is visited (for its marking effects) and the body walked; the
      -- init assignment is not visited
      if nodeEq t (.Num ("0")) then (.dnone, st)
      else
        let (_, st1) := dce_visit fuel st t
        let (b', st2) := dce_walk_body fuel st1 b
        (.dnode (.For a t b'), st2)
    | .VarDecl g ty nm len? =>
      -- visit_vardecl: dropped when never referenced nor assigned
      (match nm with
       | .Name id _ =>
         (match dceGetVar st id with
          | none => (.dnone, st)
          | some .dNone => (.dnone, st)
          | some _ => (.dnode (.VarDecl g ty nm len?), st))
       | _ => (.dnode (.VarDecl g ty nm len?), st))
    | .ReturnTok => (.dnode .ReturnTok, st)
    | .PyStrTok s => (.dnode (.PyStrTok s), st)
    | _ => dce_visit_children fuel st n
termination_by structural fuel => fuel

/-- `DeadCodeEliminator.visit_if`.  A test equal to `Num('1')` replaces the
node with its (walked) then-body; a test equal to `Num('0')` replaces it
with its (walked) else-body, which removes the node when that body is
empty; a node with two empty bodies is dropped; otherwise the else-body,
then the body, then the test are visited in reverse program order. -/
def dce_visit_if : Nat → DCEState → Node → List Node → List Node → (DRes × DCEState)
  | 0, st, t, b, o => (.dnode (.If t b o), st)
  | fuel + 1, st, test, body, orelse =>
    if nodeEq test (.Num ("1")) then
      let (b', st') := dce_walk_body fuel st body
      (.dlist b', st')
    else if nodeEq test (.Num ("0")) then
      let (o', st') := dce_walk_body fuel st orelse
      (.dlist o', st')
    else if body.isEmpty && orelse.isEmpty then (.dnone, st)
    else
      let (o', st1) := dce_walk_body fuel st orelse
      let (b', st2) := dce_walk_body fuel st1 body
      let (_, st3) := dce_visit fuel st2 test
      (.dnode (.If test b' o'), st3)
termination_by structural fuel => fuel

/-- `DeadCodeEliminator.visit_block` (Program and ProcDecl): an
unreferenced procedure is dropped whole; otherwise a new scope is entered,
every declaration is pre-defined, the body and then the declaration list
are walked in reverse, and a top-level `return` truncates the rest of the
body. -/
def dce_visit_block : Nat → DCEState → Node → (DRes × DCEState)
  | 0, st, n => (.dnode n, st)
  | fuel + 1, st, n =>
    match n with
    | .ProcDecl g nm ps ds bd =>
      let dropIt := match nm with
        | .Name id _ =>
          (match dceGetVar st id with
           | some (.dProc _ r) => r.isNone
           | _ => false)
        | _ => false
      if dropIt then (.dnone, st)
      else
        let st1 : DCEState := match st with
          | ⟨m0, g0, sc0⟩ => ⟨m0, g0, [] :: sc0⟩
        let st2 := match nm with
          | .Name id _ => dceDefine st1 id (.dProc (.ProcDecl g nm ps ds bd) none) false
          | _ => st1
        let st3 := ds.foldl (fun acc d =>
            match d with
            | .ProcDecl dg (.Name did _) _ _ _ => dceDefine acc did (.dProc d none) dg
            | .VarDecl _ _ (.Name did _) _ => dceDefine acc did .dNone false
            | _ => acc) st2
        let (bd', st4) := dce_walk_body fuel st3 bd
        let (ds', st5) := dce_walk_body fuel st4 ds
        let bd'' := match bd'.findIdx? (fun x => nodeEq x .ReturnTok) with
          | some i => bd'.take i
          | none => bd'
        (.dnode (.ProcDecl g nm ps ds' bd''),
         match st5 with
         | ⟨m5, g5, sc5⟩ => ⟨m5, g5, sc5.tail⟩)
    | .Program nm ds bd =>
      let st1 : DCEState := match st with
        | ⟨m0, g0, sc0⟩ => ⟨m0, g0, [] :: sc0⟩
      let st2 := ds.foldl (fun acc d =>
          match d with
          | .ProcDecl dg (.Name did _) _ _ _ => dceDefine acc did (.dProc d none) dg
          | .VarDecl _ _ (.Name did _) _ => dceDefine acc did .dNone false
          | _ => acc) st1
      let (bd', st3) := dce_walk_body fuel st2 bd
      let (ds', st4) := dce_walk_body fuel st3 ds
      let bd'' := match bd'.findIdx? (fun x => nodeEq x .ReturnTok) with
        | some i => bd'.take i
        | none => bd'
      (.dnode (.Program nm ds' bd''),
       match st4 with
       | ⟨m4, g4, sc4⟩ => ⟨m4, g4, sc4.tail⟩)
    | other => (.dnode other, st)
termination_by structural fuel => fuel

/-- `DeadCodeEliminator.walk_body`: walk a statement list in reverse,
splicing list results and dropping `None` results.  It never touches the
`modified_tree` flag. -/
def dce_walk_body : Nat → DCEState → List Node → (List Node × DCEState)
  | 0, st, xs => (xs, st)
  | _ + 1, st, [] => ([], st)
  | fuel + 1, st, x :: rest =>
    let (rest', st1) := dce_walk_body fuel st rest
    let (res, st2) := dce_visit fuel st1 x
    (match res with
     | .dnode n' => (n' :: rest', st2)
     | .dnone => (rest', st2)
     | .dlist l => (l ++ rest', st2))
termination_by structural fuel => fuel

/-- A single node field of `TreeMutator.visit_children` under the
eliminator: a `None`/list result would be written into a node field (an
ill-formed tree, unreachable from grammar-shaped ASTs); the flag records
the unequal replacement either way. -/
def dceChild : Nat → DCEState → Node → (Node × DCEState)
  | 0, st, old => (old, st)
  | fuel + 1, st, old =>
    let (res, st1) := dce_visit fuel st old
    (match st1 with
     | ⟨m1, g1, sc1⟩ =>
       match res with
       | .dnode n' => (n', ⟨m1 || !nodeEq old n', g1, sc1⟩)
       | _ => (old, ⟨true, g1, sc1⟩))
termination_by structural fuel => fuel

def dce_visit_list : Nat → DCEState → List Node → (List Node × DCEState)
  | 0, st, xs => (xs, st)
  | _ + 1, st, [] => ([], st)
  | fuel + 1, st, x :: rest =>
    let (res, st1) := dce_visit fuel st x
    let (rest', st2) := dce_visit_list fuel st1 rest
    (match res with
     | .dnode n' => (n' :: rest', st2)
     | .dnone => (rest', st2)
     | .dlist l => (l ++ rest', st2))
termination_by structural fuel => fuel

def dceListField : Nat → DCEState → List Node → (List Node × DCEState)
  | 0, st, xs => (xs, st)
  | fuel + 1, st, xs =>
    let (xs', st1) := dce_visit_list fuel st xs
    (xs', match st1 with
      | ⟨m1, g1, sc1⟩ => ⟨m1 || !nodeListEq xs xs', g1, sc1⟩)
termination_by structural fuel => fuel

/-- `TreeMutator.visit_children` for `DeadCodeEliminator` (reached only for
Num, Str, BinaryOp, UnaryOp, Subscript and Param nodes, all of whose visits
return their argument, so it never flags on grammar-shaped trees). -/
def dce_visit_children : Nat → DCEState → Node → (DRes × DCEState)
  | 0, st, n => (.dnode n, st)
  | fuel + 1, st, n =>
    match n with
    | .Program nm ds bd =>
      let (nm', st1) := dceChild fuel st nm
      let (ds', st2) := dceListField fuel st1 ds
      let (bd', st3) := dceListField fuel st2 bd
      (.dnode (.Program nm' ds' bd'), st3)
    | .VarDecl g ty nm len? =>
      let (nm', st1) := dceChild fuel st nm
      (match len? with
       | some a =>
         if isAstNode a then
           let (a', st2) := dceChild fuel st1 a
           (.dnode (.VarDecl g ty nm' (some a')), st2)
         else (.dnode (.VarDecl g ty nm' (some a)), st1)
       | none => (.dnode (.VarDecl g ty nm' none), st1))
    | .ProcDecl g nm ps ds bd =>
      let (nm', st1) := dceChild fuel st nm
      let (ps', st2) := dceListField fuel st1 ps
      let (ds', st3) := dceListField fuel st2 ds
      let (bd', st4) := dceListField fuel st3 bd
      (.dnode (.ProcDecl g nm' ps' ds' bd'), st4)
    | .Param vd dir =>
      let (vd', st1) := dceChild fuel st vd
      (.dnode (.Param vd' dir), st1)
    | .Assign t v =>
      let (t', st1) := dceChild fuel st t
      let (v', st2) := dceChild fuel st1 v
      (.dnode (.Assign t' v'), st2)
    | .If t b o =>
      let (t', st1) := dceChild fuel st t
      let (b', st2) := dceListField fuel st1 b
      let (o', st3) := dceListField fuel st2 o
      (.dnode (.If t' b' o'), st3)
    | .For a t b =>
      let (a', st1) := dceChild fuel st a
      let (t', st2) := dceChild fuel st1 t
      let (b', st3) := dceListField fuel st2 b
      (.dnode (.For a' t' b'), st3)
    | .Call f args =>
      let (f', st1) := dceChild fuel st f
      let (args', st2) := dceListField fuel st1 args
      (.dnode (.Call f' args'), st2)
    | .BinaryOp op l r nt =>
      let (l', st1) := dceChild fuel st l
      let (r', st2) := dceChild fuel st1 r
      (.dnode (.BinaryOp op l' r' nt), st2)
    | .UnaryOp op x nt =>
      let (x', st1) := dceChild fuel st x
      (.dnode (.UnaryOp op x' nt), st1)
    | .Subscript nm ix nt =>
      let (nm', st1) := dceChild fuel st nm
      let (ix', st2) := dceChild fuel st1 ix
      (.dnode (.Subscript nm' ix' nt), st2)
    | other => (.dnode other, st)
termination_by structural fuel => fuel

end

/-- `ConstantPropagator(print_errors=...).walk(ast)`: the resulting tree
and the final pass state (including `modified_tree`). -/
def ConstantPropagator_walk (print_errs : Bool) (t : Node) : Node × CPState :=
  cp_visit optFuel ⟨false, [], [[]], 0, print_errs⟩ t

/-- `DeadCodeEliminator().walk(ast)` (the eliminator starts with an empty
scope stack; `visit_block` pushes the first scope). -/
def DeadCodeEliminator_walk (t : Node) : Node × DCEState :=
  match dce_visit optFuel ⟨false, [], []⟩ t with
  | (.dnode n, st) => (n, st)
  | (_, st) => (t, st)

/-- The `for i in xrange(3)` loop of `optimize_tree` at level 2: run a
fresh propagator then a fresh eliminator, and return as soon as either pass
reports an unmodified tree. -/
def optPairLoop : Nat → Node → Node
  | 0, t => t
  | i + 1, t =>
    let (t1, pst) := ConstantPropagator_walk false t
    let (t2, est) := DeadCodeEliminator_walk t1
    if !pst.modified || !est.modified then t2
    else optPairLoop i t2

/-- `optimize_tree`: level 1 folds once; level 2 runs propagator+eliminator
once unconditionally and then up to three more times through
`optPairLoop`. -/
def optimize_tree (ast : Node) (level : Nat) : Node :=
  if level == 0 then ast
  else if level == 1 then (ConstantFolder_walk ast).1
  else if level == 2 then
    let t1 := (ConstantPropagator_walk true ast).1
    let t2 := (DeadCodeEliminator_walk t1).1
    optPairLoop 3 t2
  else ast

theorem dce_walk_body_nil (fuel : Nat) (st : DCEState) :
    dce_walk_body fuel st [] = ([], st) := by
  cases fuel <;> rfl

/-- The dead-code-elimination scenario program:
`program p is procedure f(int x in) ... begin if(0) then f(1); else f(2); end if; end program`. -/
def progC6 : Node :=
  .Program (.Name ("p") none)
    [ .ProcDecl false (.Name ("f") none)
        [.Param (.VarDecl false tokens.INT (.Name ("x") none) none) tokens.IN] [] [] ]
    [ .If (.Num ("0")) [.Call (.Name ("f") none) [.Num ("1")]]
        [.Call (.Name ("f") none) [.Num ("2")]] ]

/-- C6: `DeadCodeEliminator.visit_if` replaces an `If` whose test equals
`Num("1")` with its walked then-body, replaces one whose test equals
`Num("0")` with its walked else-body (an empty else-body removing the node,
since splicing an empty list into the parent deletes it), and drops a node
whose two bodies are both empty regardless of the test; on the program
`if(0) then f(1); else f(2); end if;` the surviving body is exactly
`[f(2)]`. -/
theorem c6_dce_visit_if_cases :
    (∀ (fuel : Nat) (st : DCEState) (test : Node) (b o : List Node),
      nodeEq test (.Num ("1")) = true →
      dce_visit_if (fuel + 1) st test b o =
        (.dlist (dce_walk_body fuel st b).1, (dce_walk_body fuel st b).2)) ∧
    (∀ (fuel : Nat) (st : DCEState) (test : Node) (b o : List Node),
      nodeEq test (.Num ("1")) = false → nodeEq test (.Num ("0")) = true →
      dce_visit_if (fuel + 1) st test b o =
        (.dlist (dce_walk_body fuel st o).1, (dce_walk_body fuel st o).2)) ∧
    (∀ (fuel : Nat) (st : DCEState) (test : Node),
      (dce_visit_if (fuel + 1) st test [] []).1 = .dnone ∨
      (dce_visit_if (fuel + 1) st test [] []).1 = .dlist []) ∧
    (DeadCodeEliminator_walk progC6).1 =
      .Program (.Name ("p") none)
        [ .ProcDecl false (.Name ("f") none)
            [.Param (.VarDecl false tokens.INT (.Name ("x") none) none) tokens.IN] [] [] ]
        [ .Call (.Name ("f") none) [.Num ("2")] ] := by
  refine ⟨?_, ?_, ?_, by rfl⟩
  · intro fuel st test b o h
    simp [dce_visit_if, h]
  · intro fuel st test b o h1 h0
    simp [dce_visit_if, h1, h0]
  · intro fuel st test
    by_cases h1 : nodeEq test (.Num ("1")) = true
    · right
      simp [dce_visit_if, h1, dce_walk_body_nil]
    · by_cases h0 : nodeEq test (.Num ("0")) = true
      · right
        simp [dce_visit_if, h1, h0, dce_walk_body_nil]
      · left
        simp [dce_visit_if, h1, h0, List.isEmpty]

/-- Witness for C6: the `Num("1")` case applied at a concrete state and
body. -/
theorem c6_dce_visit_if_cases_witness :
    dce_visit_if 6 ⟨false, [], []⟩ (.Num ("1"))
        [.Assign (.Name ("z") none) (.Num ("1"))] [] =
      (.dlist (dce_walk_body 5 ⟨false, [], []⟩ [.Assign (.Name ("z") none) (.Num ("1"))]).1,
       (dce_walk_body 5 ⟨false, [], []⟩ [.Assign (.Name ("z") none) (.Num ("1"))]).2) :=
  c6_dce_visit_if_cases.1 5 ⟨false, [], []⟩ (.Num ("1"))
    [.Assign (.Name ("z") none) (.Num ("1"))] [] (by decide)

/-- A valid typed program on which level-2 optimization stops short of its
fixed point: the first eliminator pass hoists `b := 2` out of `if(1)`, the
second propagator pass then folds the test `b == 2` to `Num("1")`, the
second eliminator pass hoists `c := 3` — but reports `modified_tree =
false` (its `walk_body` rewrites never touch the flag), so the loop stops,
leaving `d := c + 1` unfolded. -/
def progC2 : Node :=
  .Program (.Name ("p") none)
    [ .VarDecl false tokens.INT (.Name ("b") none) none,
      .VarDecl false tokens.INT (.Name ("c") none) none,
      .VarDecl false tokens.INT (.Name ("d") none) none,
      .ProcDecl false (.Name ("f") none)
        [.Param (.VarDecl false tokens.INT (.Name ("x") none) none) tokens.IN] [] [] ]
    [ .If (.Num ("1")) [.Assign (.Name ("b") none) (.Num ("2"))] [],
      .If (.BinaryOp tokens.EQUAL (.Name ("b") none) (.Num ("2")) none)
          [.Assign (.Name ("c") none) (.Num ("3"))] [],
      .Assign (.Name ("d") none) (.BinaryOp tokens.PLUS (.Name ("c") none) (.Num ("1")) none),
      .Call (.Name ("f") none) [.Name ("b") none],
      .Call (.Name ("f") none) [.Name ("c") none],
      .Call (.Name ("f") none) [.Name ("d") none] ]

/-- The tree `optimize_tree(progC2, 2)` actually produces: `d := c + 1` is
still foldable. -/
def progC2_opt : Node :=
  .Program (.Name ("p") none)
    [ .VarDecl false tokens.INT (.Name ("b") none) none,
      .VarDecl false tokens.INT (.Name ("c") none) none,
      .VarDecl false tokens.INT (.Name ("d") none) none,
      .ProcDecl false (.Name ("f") none)
        [.Param (.VarDecl false tokens.INT (.Name ("x") none) none) tokens.IN] [] [] ]
    [ .Assign (.Name ("b") none) (.Num ("2")),
      .Assign (.Name ("c") none) (.Num ("3")),
      .Assign (.Name ("d") none) (.BinaryOp tokens.PLUS (.Name ("c") none) (.Num ("1")) none),
      .Call (.Name ("f") none) [.Name ("b") none],
      .Call (.Name ("f") none) [.Name ("c") none],
      .Call (.Name ("f") none) [.Name ("d") none] ]

set_option maxRecDepth 200000 in
set_option maxHeartbeats 8000000 in
/-- C2 counterexample: on the valid AST `progC2`, level-2 optimization does
NOT reach a fixed point of the combined propagate-and-eliminate pass:
running `ConstantPropagator` once more on the result still modifies it (it
folds `d := c + 1` to `d := 4`). -/
theorem c2_not_fixed_point :
    optimize_tree progC2 2 = progC2_opt ∧
    (ConstantPropagator_walk false progC2_opt).2.modified = true ∧
    nodeEq (ConstantPropagator_walk false progC2_opt).1 progC2_opt = false := by
  refine ⟨by rfl, by rfl, by decide⟩

set_option maxRecDepth 200000 in
set_option maxHeartbeats 8000000 in
/-- C2 amended: the level-2 loop stops as soon as EITHER pass reports an
unmodified tree (`if not propagator.modified_tree or not
eliminator.modified_tree: return`), not when neither modified it.  On
`progC2` the loop's first repeat has a modifying propagator and a
non-modifying eliminator, so `optimize_tree` returns after exactly two
propagator+eliminator pairs — short of the fixed point. -/
theorem c2_stops_when_either_pass_unmodified :
    (ConstantPropagator_walk false
        ((DeadCodeEliminator_walk (ConstantPropagator_walk true progC2).1).1)).2.modified
      = true ∧
    (DeadCodeEliminator_walk
        ((ConstantPropagator_walk false
          ((DeadCodeEliminator_walk (ConstantPropagator_walk true progC2).1).1)).1)).2.modified
      = false ∧
    optimize_tree progC2 2 =
      (DeadCodeEliminator_walk
        ((ConstantPropagator_walk false
          ((DeadCodeEliminator_walk (ConstantPropagator_walk true progC2).1).1)).1)).1 := by
  refine ⟨by rfl, by rfl, by rfl⟩

/-!
Code generator embedding (`src/codegenerator.py`).

The modelled subset covers programs without procedures, calls or
subscripts: `Program`, `VarDecl` stack layout, `Assign` (to a `Name`),
`If`, `For`, and the expression kinds `Num`, `Str`, `Name`, `BinaryOp`,
`UnaryOp`.  Procedure lowering (`visit_procdecl`, `visit_call`,
`visit_subscript`, parameter addressing at negative frame offsets) is
outside the subset; the claims evaluated here (the `For` lowering and the
register-count declaration) do not involve it.  `generate_comments` is
modelled as off, and the source-line numbers interpolated into
`validateBooleanOp` calls (token spans are not modelled) are rendered as 0.
-/

structure RegisterHeap where
  queue : List Nat
  size : Nat
  max_size : Nat
  deriving Repr

/-- `heapq.heappush` on the min-heap, modelled as an ordered insert into a
sorted list (the heap's observable behavior: `get` pops the minimum). -/
def heapInsert (r : Nat) : List Nat → List Nat
  | [] => [r]
  | x :: xs => if r ≤ x then r :: x :: xs else x :: heapInsert r xs

/-- `RegisterHeap.put`. -/
def RegisterHeap.put (h : RegisterHeap) (r : Nat) : RegisterHeap :=
  match h with
  | ⟨q, s, m⟩ => ⟨heapInsert r q, s, m⟩

/-- `RegisterHeap.get`: pop the smallest free register, or mint a fresh one,
bumping `size` and the high-water mark `max_size`. -/
def RegisterHeap.get (h : RegisterHeap) : Nat × RegisterHeap :=
  match h with
  | ⟨q, s, m⟩ =>
    match q with
    | r :: rest => (r, ⟨rest, s, m⟩)
    | [] => (s, ⟨[], s + 1, max (s + 1) m⟩)

/-- `RegisterHeap.clear` (used by `leave_scope`): forget the free list and
reset `size`, keeping the high-water mark. -/
def RegisterHeap.clear (h : RegisterHeap) : RegisterHeap :=
  match h with
  | ⟨_, _, m⟩ => ⟨[], 0, m⟩

/-- The trailing register-file declaration `visit_program` emits once the
walk is done: `'int R[%d];' % self.free_registers.max_size`. -/
def registerDeclLine (h : RegisterHeap) : String :=
  "int R[" ++ toString h.max_size ++ "];"

/-- The PROLOG text of `codegenerator.py` (after its `.strip()`). -/
def PROLOG : String :=
  "#include \"string.h\"\n#define true 1\n#define false 0\n#define MM_SIZE 32768\n#define INPUT_BUFFER_SIZE 1024\n\nextern int R[];\nint MM[MM_SIZE];\nchar INPUT_BUFFER[INPUT_BUFFER_SIZE];\nfloat FLOAT_REG_1; \nfloat FLOAT_REG_2;\nint SP = 0; /* stack pointer */\nint FP = 0; /* frame pointer */\nint HP = MM_SIZE - 1; /* heap pointer */\n\nint main() \x7b"

structure CGState where
  out : List String
  register_assignements : List (String × Nat)
  free_registers : RegisterHeap
  global_memory_locations : List (String × Nat)
  fp_offsets : List (List (String × Nat))
  label_counts : List (String × Nat)
  last_subscript_address : Option Nat
  deriving Repr

/-- `CodeGenerator.write`: emit one line, `indent + text`. -/
def cgWrite (st : CGState) (indent text : String) : CGState :=
  match st with
  | ⟨out, ra, fr, gml, fpo, lc, lsa⟩ => ⟨out ++ [indent ++ text], ra, fr, gml, fpo, lc, lsa⟩

/-- `CodeGenerator.create_call_label`: `'%s_%d'` with a per-title counter. -/
def create_call_label (st : CGState) (title : String) : String × CGState :=
  match st with
  | ⟨out, ra, fr, gml, fpo, lc, lsa⟩ =>
    let count := (((lc.find? (fun p => p.1 == title)).map (fun p => p.2)).getD 0)
    (title ++ "_" ++ toString count, ⟨out, ra, fr, gml, fpo, (title, count + 1) :: lc, lsa⟩)

/-- `CodeGenerator.get_memory_location` for the modelled subset: a global's
absolute offset or a local's `FP + k` slot.  (Negative offsets — parameter
addressing — require the enclosing procedure's declaration and lie outside
the subset; a missing name would raise `KeyError` in the source.) -/
def get_memory_location (st : CGState) (id : String) : String :=
  match st.global_memory_locations.find? (fun p => p.1 == id) with
  | some p => toString p.2
  | none =>
    match (st.fp_offsets.headD []).find? (fun p => p.1 == id) with
    | some p => "FP + " ++ toString p.2
    | none => "KEYERROR"

/-- `CodeGenerator.get_register`: reuse the cached register for a name, or
acquire one and emit the load from memory. -/
def cg_get_register (st : CGState) (id : String) : Nat × CGState :=
  match st.register_assignements.find? (fun p => p.1 == id) with
  | some p => (p.2, st)
  | none =>
    let loc := get_memory_location st id
    match st with
    | ⟨out, ra, fr, gml, fpo, lc, lsa⟩ =>
      match fr.get with
      | (reg, fr') =>
        (reg, ⟨out ++ ["    R[" ++ toString reg ++ "] = MM[" ++ loc ++ "];"],
               (id, reg) :: ra, fr', gml, fpo, lc, lsa⟩)

/-- `free_registers.put` on the generator state. -/
def cg_put (st : CGState) (r : Nat) : CGState :=
  match st with
  | ⟨out, ra, fr, gml, fpo, lc, lsa⟩ => ⟨out, ra, fr.put r, gml, fpo, lc, lsa⟩

/-- `free_registers.get` on the generator state (no emission). -/
def cg_get (st : CGState) : Nat × CGState :=
  match st with
  | ⟨out, ra, fr, gml, fpo, lc, lsa⟩ =>
    match fr.get with
    | (reg, fr') => (reg, ⟨out, ra, fr', gml, fpo, lc, lsa⟩)

/-- `CodeGenerator.allocated_register`. -/
def allocated_register : Node → Bool
  | .BinaryOp _ _ _ _ => true
  | .UnaryOp _ _ _ => true
  | .Subscript _ _ _ => true
  | _ => false

/-- The value an expression visit returns: a `Register` (rendered `R[i]`)
or a plain string (a literal). -/
inductive RVal where
  | reg (n : Nat)
  | lit (s : String)
  deriving Repr

def rvStr : RVal → String
  | .reg n => "R[" ++ toString n ++ "]"
  | .lit s => s

/-- The `node_type` attribute the checker leaves on expression nodes. -/
def nodeNType : Node → Option String
  | .Name _ nt => nt
  | .BinaryOp _ _ _ nt => nt
  | .UnaryOp _ _ nt => nt
  | .Subscript _ _ nt => nt
  | _ => none

/-- The number of memory slots a declaration occupies (`array_length` is a
`Num` node, or the bare size lexeme the parser stores). -/
def declSlots : Option Node → Nat
  | none => 1
  | some (.Num s) => (parseNatDigits s.toList 0).getD 1
  | some (.PyStrTok s) => (parseNatDigits s.toList 0).getD 1
  | some _ => 1

/-- `CodeGenerator.calc_local_var_stack_size` over the modelled subset:
assign each variable its offset (globals into the absolute map, locals into
the current frame map) and accumulate the frame size.  (A nested `ProcDecl`
would be generated here in the source; procedures are outside the subset.) -/
def calc_local_var_stack_size (st : CGState) (decls : List Node) : Nat × CGState :=
  go st 0 decls
where
  go (st : CGState) (sp : Nat) : List Node → Nat × CGState
    | [] => (sp, st)
    | d :: rest =>
      match d with
      | .VarDecl g _ (.Name id _) len? =>
        let st' :=
          match st with
          | ⟨out, ra, fr, gml, fpo, lc, lsa⟩ =>
            if g then (⟨out, ra, fr, (id, sp) :: gml, fpo, lc, lsa⟩ : CGState)
            else
              match fpo with
              | cur :: outer => ⟨out, ra, fr, gml, ((id, sp) :: cur) :: outer, lc, lsa⟩
              | [] => ⟨out, ra, fr, gml, [[(id, sp)]], lc, lsa⟩
        go st' (sp + declSlots len?) rest
      | _ => go st sp rest

mutual

/-- `TreeWalker._visit` for the code generator over the modelled subset.
Statement visits return a dummy value; expression visits return the
register or literal that holds the value. -/
def cg_visit : Nat → CGState → Node → (RVal × CGState)
  | 0, st, _ => (.lit (""), st)
  | fuel + 1, st, n =>
    match n with
    | .Num s => (.lit s, st)
    | .Str s => (.lit ("(int) " ++ s), st)
    | .Name id _ =>
      let (r, st') := cg_get_register st id
      (.reg r, st')
    | .BinaryOp op l r nt =>
      -- visit_binop
      let (lv, st1) := cg_visit fuel st l
      let (rv, st2) := cg_visit fuel st1 r
      let st3 := if allocated_register r then
          (match rv with
           | .reg k => cg_put st2 k
           | _ => st2)
        else st2
      let st4 := if allocated_register l then
          (match lv with
           | .reg k => cg_put st3 k
           | _ => st3)
        else st3
      let (outreg, st5) := cg_get st4
      if nt == some tokens.FLOAT then
        let st6 := match l with
          | .Num _ => cgWrite st5 ("    ") ("FLOAT_REG_1 = " ++ rvStr lv ++ ";")
          | _ => cgWrite st5 ("    ") ("memcpy(&FLOAT_REG_1, &" ++ rvStr lv ++ ", sizeof(float));")
        let st7 := match r with
          | .Num _ => cgWrite st6 ("    ") ("FLOAT_REG_2 = " ++ rvStr rv ++ ";")
          | _ => cgWrite st6 ("    ") ("memcpy(&FLOAT_REG_2, &" ++ rvStr rv ++ ", sizeof(float));")
        let st8 := cgWrite st7 ("    ") ("FLOAT_REG_1 = FLOAT_REG_1 " ++ op ++ " FLOAT_REG_2;")
        let st9 := cgWrite st8 ("    ")
            ("memcpy(&R[" ++ toString outreg ++ "], &FLOAT_REG_1, sizeof(float));")
        (.reg outreg, st9)
      else
        let st6 := if nt == some tokens.BOOL then
            cgWrite st5 ("    ")
              ("validateBooleanOp(" ++ rvStr lv ++ ", \x27" ++ op ++ "\x27, " ++ rvStr rv ++ ", 0);")
          else st5
        let st7 := cgWrite st6 ("    ")
            ("R[" ++ toString outreg ++ "] = " ++ rvStr lv ++ " " ++ op ++ " " ++ rvStr rv ++ ";")
        (.reg outreg, st7)
    | .UnaryOp op x nt =>
      -- visit_unaryop
      let (xv, st1) := cg_visit fuel st x
      let st2 := if allocated_register x then
          (match xv with
           | .reg k => cg_put st1 k
           | _ => st1)
        else st1
      let (outreg, st3) := cg_get st2
      if op == tokens.NOT then
        if nt == some tokens.BOOL then
          let st4 := cgWrite st3 ("    ")
              ("validateBooleanOp(0, \x27!\x27, " ++ rvStr xv ++ ", 0);")
          let st5 := cgWrite st4 ("    ")
              ("R[" ++ toString outreg ++ "] = !" ++ rvStr xv ++ ";")
          (.reg outreg, st5)
        else
          let st4 := cgWrite st3 ("    ")
              ("R[" ++ toString outreg ++ "] = ~" ++ rvStr xv ++ ";")
          (.reg outreg, st4)
      else
        let st4 := cgWrite st3 ("    ")
            ("R[" ++ toString outreg ++ "] = " ++ op ++ rvStr xv ++ ";")
        (.reg outreg, st4)
    | .Assign t v =>
      -- visit_assign (comment emission is off; a Subscript target's store
      -- is outside the subset)
      let (vv, st1) := cg_visit fuel st v
      let (ov, st2) := cg_visit fuel st1 t
      let isFloatNum := match v with
        | .Num s => s.toList.contains ('.')
        | _ => false
      let st3 :=
        if isFloatNum || nodeNType t == some tokens.FLOAT then
          let sta := cgWrite st2 ("    ") ("FLOAT_REG_1 = " ++ rvStr vv ++ ";")
          cgWrite sta ("    ") ("memcpy(&" ++ rvStr ov ++ ", &FLOAT_REG_1, sizeof(float));")
        else cgWrite st2 ("    ") (rvStr ov ++ " = " ++ rvStr vv ++ ";")
      let st4 := if allocated_register v then
          (match vv with
           | .reg k => cg_put st3 k
           | _ => st3)
        else st3
      (.lit (""), st4)
    | .If t b o =>
      -- visit_if
      let (tv, st1) := cg_visit fuel st t
      let (endif_label, st2) := create_call_label st1 ("__endif")
      let (target_label, st3) :=
        if o.isEmpty then (endif_label, st2)
        else create_call_label st2 ("__else")
      let st4 := cgWrite st3 ("    ") ("if (!" ++ rvStr tv ++ ") goto " ++ target_label ++ ";")
      let st5 := cg_visit_stmts fuel st4 b
      let st6 :=
        if o.isEmpty then st5
        else
          let sta := cgWrite st5 ("    ") ("goto " ++ endif_label ++ ";")
          let stb := cgWrite sta ("") ("\n" ++ target_label ++ ":")
          cg_visit_stmts fuel stb o
      let st7 := cgWrite st6 ("") ("\n" ++ endif_label ++ ":")
      (.lit (""), st7)
    | .For a t b =>
      -- visit_for: init assignment, start label, test, conditional exit,
      -- body, end label — and nothing else: no jump back to the start
      -- label is emitted.  (The loop labels are written with the default
      -- four-space indent, unlike visit_if's labels.)
      let (_, st1) := cg_visit fuel st a
      let (start_label, st2) := create_call_label st1 ("__for")
      let (end_label, st3) := create_call_label st2 ("__endfor")
      let st4 := cgWrite st3 ("    ") ("\n" ++ start_label ++ ":")
      let (tv, st5) := cg_visit fuel st4 t
      let st6 := cgWrite st5 ("    ") ("if (!" ++ rvStr tv ++ ") goto " ++ end_label ++ ";")
      let st7 := cg_visit_stmts fuel st6 b
      let st8 := cgWrite st7 ("    ") ("\n" ++ end_label ++ ":")
      (.lit (""), st8)
    | .Program nm ds bd =>
      -- visit_program
      let st1 := cgWrite st ("") PROLOG
      let pname := match nm with
        | .Name id _ => id
        | _ => ""
      let st2 := cgWrite st1 ("    ") ("goto " ++ pname ++ ";")
      let (sp, st3) := calc_local_var_stack_size st2 ds
      let st4 := cgWrite st3 ("") ("\n" ++ pname ++ ":")
      let st5 := if sp > 0 then cgWrite st4 ("    ") ("SP = SP + " ++ toString sp ++ ";") else st4
      let st6 := cg_visit_stmts fuel st5 bd
      let st7 := cgWrite st6 ("    ") ("return 0;")
      let st8 := cgWrite st7 ("") ("\x7d\n")
      let st9 :=
        match st8 with
        | ⟨out, ra, fr, gml, fpo, lc, lsa⟩ =>
          (⟨out ++ [registerDeclLine fr], ra, fr, gml, fpo, lc, lsa⟩ : CGState)
      (.lit (""), st9)
    | _ => (.lit (""), st)
termination_by structural fuel => fuel

def cg_visit_stmts : Nat → CGState → List Node → CGState
  | 0, st, _ => st
  | _ + 1, st, [] => st
  | fuel + 1, st, x :: rest =>
    let (_, st1) := cg_visit fuel st x
    cg_visit_stmts fuel st1 rest
termination_by structural fuel => fuel

end

/-- `CodeGenerator().walk(ast)`: the emitted lines. -/
def CodeGenerator_walk (t : Node) : List String :=
  (cg_visit optFuel ⟨[], [], ⟨[], 0, 0⟩, [], [[]], [], none⟩ t).2.out

/-- Whether pat is an initial segment of s (character lists). -/
def chStartsWith : List Char → List Char → Bool
  | [], _ => true
  | _ :: _, [] => false
  | p :: ps, c :: cs => p == c && chStartsWith ps cs

/-- Whether pat occurs as a contiguous substring of s (character lists). -/
def chContains (pat : List Char) : List Char → Bool
  | [] => chStartsWith pat []
  | c :: cs => chStartsWith pat (c :: cs) || chContains pat cs

/-- The typed AST of `program p is int i; begin for (i := 0; 1) end for; end program`. -/
def progC1 : Node :=
  .Program (.Name ("p") none)
    [ .VarDecl false tokens.INT (.Name ("i") none) none ]
    [ .For (.Assign (.Name ("i") (some tokens.INT)) (.Num ("0")))
        (.Num ("1")) [] ]

/-- C1.  The code generator's `For` lowering emits the initialization
assignment, the start label, the test, the conditional exit to the end
label, the body, and then the end label immediately — it never emits the
unconditional back-edge `goto __for_0;` the claim requires, so the
generated loop cannot iterate.  On the one-loop program `progC1` the
complete emission is listed exactly, and no emitted line contains a goto
targeting the loop start label. -/
theorem c1_for_lowering_emits_no_backedge :
    CodeGenerator_walk progC1 =
      [ PROLOG,
        "    goto p;",
        "\np:",
        "    SP = SP + 1;",
        "    R[0] = MM[FP + 0];",
        "    R[0] = 0;",
        "    \n__for_0:",
        "    if (!1) goto __endfor_0;",
        "    \n__endfor_0:",
        "    return 0;",
        "\x7d\n",
        "int R[1];" ] ∧
    (CodeGenerator_walk progC1).all
      (fun l => !(chContains ("goto __for_0").toList l.toList)) = true := by
  exact ⟨by rfl, by rfl⟩

/-- A register-allocator request, as the code generator's visit functions
issue them against `free_registers`: acquire a register, release one it
holds, or clear the pool on scope exit. -/
inductive RegOp where
  | get
  | put (r : Nat)
  | clear
  deriving Repr, DecidableEq

/-- A `RegisterHeap` together with verification bookkeeping: the multiset
of registers currently held by the client, the observed peak number of
simultaneously held registers, and a flag recording that every `put` so
far released a register that was actually held. -/
structure RegTrace where
  heap : RegisterHeap
  held : List Nat
  peak : Nat
  ok : Bool

def regStep (t : RegTrace) (op : RegOp) : RegTrace :=
  match t with
  | ⟨h, held, peak, ok⟩ =>
    match op with
    | .get =>
      let (r, h') := h.get
      ⟨h', r :: held, max peak (held.length + 1), ok⟩
    | .put r =>
      if r ∈ held then ⟨h.put r, held.erase r, peak, ok⟩
      else ⟨h.put r, held, peak, false⟩
    | .clear => ⟨h.clear, [], peak, ok⟩

/-- Run a request sequence against a fresh `RegisterHeap` (as built in
`CodeGenerator.__init__`). -/
def regRun (ops : List RegOp) : RegTrace :=
  ops.foldl regStep ⟨⟨[], 0, 0⟩, [], 0, true⟩

/-- The allocator invariant: `size` counts held plus free registers,
never exceeds the high-water mark, and the high-water mark is exactly the
peak number of simultaneously held registers. -/
def RegInv (t : RegTrace) : Prop :=
  t.heap.size = t.held.length + t.heap.queue.length ∧
  t.heap.size ≤ t.heap.max_size ∧
  t.heap.max_size = t.peak

lemma heapInsert_length (r : Nat) (q : List Nat) :
    (heapInsert r q).length = q.length + 1 := by
  induction q with
  | nil => rfl
  | cons x xs ih =>
    simp only [heapInsert]
    split
    · simp
    · simp [ih]

lemma regStep_preserves (t : RegTrace) (op : RegOp)
    (ih : t.ok = true → RegInv t) :
    (regStep t op).ok = true → RegInv (regStep t op) := by
  obtain ⟨⟨q, s, m⟩, held, peak, ok⟩ := t
  cases op with
  | get =>
    intro hok
    have hok' : ok = true := by
      cases q <;> exact hok
    have h1 : s = held.length + q.length := (ih hok').1
    have h2 : s ≤ m := (ih hok').2.1
    have h3 : m = peak := (ih hok').2.2
    cases q with
    | nil =>
      refine ⟨?_, ?_, ?_⟩
      · show s + 1 = (s :: held).length + ([] : List Nat).length
        simp only [List.length_cons, List.length_nil] at h1 ⊢
        omega
      · show s + 1 ≤ max (s + 1) m
        exact Nat.le_max_left _ _
      · show max (s + 1) m = max peak (held.length + 1)
        simp only [List.length_nil] at h1
        omega
    | cons r rest =>
      refine ⟨?_, ?_, ?_⟩
      · show s = (r :: held).length + rest.length
        simp only [List.length_cons] at h1 ⊢
        omega
      · show s ≤ m
        exact h2
      · show m = max peak (held.length + 1)
        simp only [List.length_cons] at h1
        omega
  | put r =>
    by_cases hmem : r ∈ held
    · intro hok
      have hok' : ok = true := by
        have := hok
        simp only [regStep] at this
        rw [if_pos hmem] at this
        exact this
      have h1 : s = held.length + q.length := (ih hok').1
      have h2 : s ≤ m := (ih hok').2.1
      have h3 : m = peak := (ih hok').2.2
      have he := List.length_erase_of_mem hmem
      have hq := heapInsert_length r q
      have hpos : 0 < held.length := List.length_pos.mpr (by
        intro hnil
        rw [hnil] at hmem
        exact (List.not_mem_nil r) hmem)
      simp only [regStep]
      rw [if_pos hmem]
      refine ⟨?_, ?_, ?_⟩
      · show s = (held.erase r).length + (heapInsert r q).length
        omega
      · show s ≤ m
        exact h2
      · show m = peak
        exact h3
    · intro hok
      simp only [regStep] at hok
      rw [if_neg hmem] at hok
      exact Bool.noConfusion hok
  | clear =>
    intro hok
    have hok' : ok = true := hok
    have h3 : m = peak := (ih hok').2.2
    refine ⟨?_, ?_, ?_⟩
    · show (0 : Nat) = ([] : List Nat).length + ([] : List Nat).length
      rfl
    · show (0 : Nat) ≤ m
      exact Nat.zero_le m
    · show m = peak
      exact h3

lemma regRun_aux (ops : List RegOp) (t : RegTrace)
    (ih : t.ok = true → RegInv t) :
    (ops.foldl regStep t).ok = true → RegInv (ops.foldl regStep t) := by
  induction ops generalizing t with
  | nil => exact ih
  | cons op rest ihr =>
    exact fun h => ihr (regStep t op) (regStep_preserves t op ih) h

/-- C9.  For every well-formed request sequence (each `put` releases a
register the generator actually held — `ok`), the `RegisterHeap`'s
`max_size` after the run equals the peak number of simultaneously held
registers, so the trailing `int R[n];` declaration `visit_program` emits
via `registerDeclLine` declares exactly the peak register count. -/
theorem c9_register_decl_matches_peak (ops : List RegOp)
    (h : (regRun ops).ok = true) :
    (regRun ops).heap.max_size = (regRun ops).peak ∧
    registerDeclLine (regRun ops).heap =
      "int R[" ++ toString ((regRun ops).peak) ++ "];" := by
  have hinv : RegInv (regRun ops) := by
    have := regRun_aux ops ⟨⟨[], 0, 0⟩, [], 0, true⟩
      (fun _ => ⟨rfl, Nat.le_refl 0, rfl⟩)
    exact this h
  obtain ⟨h1, h2, h3⟩ := hinv
  exact ⟨h3, by rw [registerDeclLine, h3]⟩

def opsC9 : List RegOp :=
  [RegOp.get, RegOp.get, RegOp.put 0, RegOp.get, RegOp.clear, RegOp.get]

/-- C9 witness: a concrete well-formed request sequence whose run holds at
most two registers at once; the theorem instantiates to it and the emitted
declaration is `int R[2];`. -/
theorem c9_register_decl_matches_peak_witness :
    (regRun opsC9).ok = true ∧
    registerDeclLine (regRun opsC9).heap =
      "int R[" ++ toString ((regRun opsC9).peak) ++ "];" :=
  ⟨by decide, (c9_register_decl_matches_peak opsC9 (by decide)).2⟩
